import Mathlib

/-!
# BSC copy-trading bot: block scan and trade replication engine

A shallow embedding of `src/main.go`.  The mutable `CopyTradingBot` value is
threaded explicitly through every method.  The RPC client and the go-ethereum
library are not part of the repository: they appear as the fields of `Client`,
an arbitrary collaborator whose RPC answers may differ from one call to the
next (they are indexed by the number of RPC calls made so far).

`uint64` arithmetic wraps modulo `2^64`; `*big.Int` is `Int`; a Go panic sets
the `crashed` flag, after which nothing else runs; the `for` loop over block
numbers takes fuel, and running out of fuel stands for a loop that does not
terminate.
-/

namespace CopyTradingBot

/-! ## Data model -/

abbrev Address := Nat

abbrev Hash := Nat

/-- One element of the `[]interface{}` produced by `method.Inputs.Unpack`:
`uint256` decodes to `*big.Int`, `address` to `common.Address`, `address[]` to
`[]common.Address`. -/
inductive Value where
  | bigInt (n : Int)
  | address (a : Address)
  | addresses (p : List Address)
  deriving DecidableEq

/-- Call data built by `abi.Pack`: the method name and its arguments. -/
structure CallData where
  method : String
  args : List Value
  deriving DecidableEq

/-- A transaction of the chain, as `scanBlock` sees it: `Hash()`, `To()`,
`Data()` and `Value()`. -/
structure Tx where
  hash : Hash
  to_ : Option Address
  data : List Nat
  value : Int
  deriving DecidableEq

structure Block where
  hash : Hash
  transactions : List Tx
  deriving DecidableEq

/-- An entry of `receipt.Logs`. -/
structure Log where
  topics : List Hash
  data : List Nat
  deriving DecidableEq

structure Receipt where
  logs : List Log
  deriving DecidableEq

/-- What `types.NewTransaction(nonce, to, value, gasLimit, gasPrice, data)`
builds on the follower side. -/
structure Transaction where
  nonce : Nat
  to_ : Address
  value : Int
  gasLimit : Nat
  gasPrice : Int
  data : CallData
  deriving DecidableEq

/-- The fields of `Config` the engine reads.  `CopyPercentage` is a `float64`
in the source; a finite `float64` is a rational number and is kept as such.
The two address strings are kept as the addresses `common.HexToAddress` makes
of them. -/
structure Config where
  MasterWalletAddr : Address
  CopyPercentage : ℚ
  RouterAddress : Address
  GasPrice : Int
  GasLimit : Nat

/-- The lines written with `log.Printf`, one constructor per call site. -/
inductive LogLine where
  | errorGettingLatestBlock
  | scanningBlocks (startBlock endBlock : Nat)
  | errorGettingBlock (blockNumber : Nat)
  | newSwapDetected (txHash : Hash)
  | errorGettingReceipt
  | errorUnpackingSwapEvent
  | couldNotDecodeMethod
  | swapMethodDetected (name : String)
  | errorUnpackingMethodInputs
  | unsupportedSwapMethod (name : String)
  | invalidParameters (name : String)
  | errorGettingMasterBalance
  | copyAmountTooSmall
  | errorGettingFollowerBalance
  | insufficientBNBBalance (need have_ : Int)
  | executingSwap (kind : String) (amountIn : Int) (path : List Address)
  | minOut (amountOutMin : Int)
  | errorWithTokenApproval
  | tokenApprovalSent (tx : Transaction)
  | errorPackingSwapData
  | errorGettingNonce
  | errorGettingChainID
  | errorSigningTransaction
  | errorSendingSwapTransaction
  | swapTransactionSent (tx : Transaction)
  deriving DecidableEq

/-- The RPC client (`ethclient.Client`) and the go-ethereum library functions
the engine calls.  The first argument of an RPC is the number of RPC calls made
before it, so that two calls with equal arguments may answer differently;
`none` is a returned `err`. -/
structure Client where
  headerByNumber : Nat → Option Nat
  blockByNumber : Nat → Int → Option Block
  transactionSender : Nat → Tx → Hash → Nat → Option Address
  transactionReceipt : Nat → Hash → Option Receipt
  balanceAt : Nat → Address → Option Nat
  callContract : Nat → Address → CallData → Option (List Nat)
  pendingNonceAt : Nat → Address → Option Nat
  networkID : Nat → Option Nat
  sendTransaction : Nat → Transaction → Nat → Bool
  /-- `time.Now().Add(20 * time.Minute).Unix()` -/
  deadline : Nat → Int
  /-- `method.ID`, the 4-byte selector of a method of the ABI -/
  methodID : String → List Nat
  /-- `method.Inputs.Unpack` -/
  unpackInputs : String → List Nat → Option (List Value)
  /-- whether `UnpackIntoInterface(&swapEvent, "Swap", log.Data)` succeeds -/
  unpackSwapEvent : List Nat → Bool
  /-- `crypto.Keccak256Hash` of the `Swap` event signature -/
  swapEventSig : Hash
  /-- whether `types.SignTx` succeeds -/
  signTx : Transaction → Nat → Bool
  /-- whether `ethclient.Dial` succeeds -/
  dial : Bool
  /-- `crypto.HexToECDSA` followed by `crypto.PubkeyToAddress` -/
  followerKey : Option Address

/-- The `CopyTradingBot` struct (`config`, `followerAddress`,
`lastBlockNumber`, `processedTxs`; `client` is the `Client` argument of every
method) together with what the process has done so far: the number of RPC
calls made, the log, the transactions handed to `SendTransaction`, and whether
it has panicked. -/
structure Bot where
  config : Config
  followerAddress : Address
  lastBlockNumber : Nat
  processedTxs : List Hash
  clock : Nat
  logs : List LogLine
  broadcasts : List Transaction
  crashed : Bool

/-! ## Machine arithmetic -/

def uint64 (n : Nat) : Nat := n % 2 ^ 64

/-- Subtraction of `uint64` values. -/
def uint64Sub (a b : Nat) : Nat := (a + 2 ^ 64 - b % 2 ^ 64) % 2 ^ 64

/-- The conversion `int64(x)` of a `uint64`. -/
def int64 (n : Nat) : Int :=
  if n % 2 ^ 64 < 2 ^ 63 then (n % 2 ^ 64 : Nat) else ((n % 2 ^ 64 : Nat) : Int) - 2 ^ 64

/-- The conversion `int64(f)` of a `float64`: the fraction is discarded.  Go
leaves the result open when the truncated value does not fit; amd64 gives
`-2^63` there. -/
def int64OfFloat64 (f : ℚ) : Int :=
  let t := Int.tdiv f.num f.den
  if -(2 ^ 63) ≤ t ∧ t < 2 ^ 63 then t else -(2 ^ 63)

/-- `(*big.Int).Uint64` of a value made by `big.NewInt`: the low 64 bits of
the absolute value. -/
def bigUint64 (x : Int) : Nat := x.natAbs % 2 ^ 64

/-- `new(big.Int).SetBytes`: the bytes read as a big-endian unsigned number. -/
def setBytes (bs : List Nat) : Int :=
  ((bs.foldl (fun acc b => acc * 256 + b % 256) 0 : Nat) : Int)

/-! ## ABIs -/

/-- The functions declared by the `routerABI` constant. -/
def routerABI : List String :=
  ["swapExactTokensForTokens", "swapExactETHForTokens", "swapExactTokensForETH"]

/-- The functions declared by the `erc20ABI` constant. -/
def erc20ABI : List String := ["balanceOf", "approve", "decimals"]

/-- The modulus of `uint256`, `2^256`. -/
def uint256Modulus : Int :=
  115792089237316195423570985008687907853269984665640564039457584007913129639936

/-- How `abi.Pack` encodes one argument.  Every integer parameter of the two
ABIs is a `uint256`: a negative `*big.Int` is an error, and the encoding keeps
the low 256 bits of the value. -/
def packValue : Value → Option Value
  | .bigInt n => if n < 0 then none else some (.bigInt (n % uint256Modulus))
  | v => some v

/-- The arguments of a call, encoded one by one. -/
def packArgs : List Value → Option (List Value)
  | [] => some []
  | v :: vs =>
    match packValue v, packArgs vs with
    | some a, some as => some (a :: as)
    | _, _ => none

/-- `abi.Pack(name, args...)`: an error when the ABI has no method of that
name or when an argument cannot be encoded.  At every call site of the source
the arguments have the Go types of the method inputs. -/
def pack (abi : List String) (name : String) (args : List Value) : Option CallData :=
  if name ∈ abi then
    match packArgs args with
    | some encoded => some ⟨name, encoded⟩
    | none => none
  else none

/-- `abi.MethodById`: the method of the ABI whose selector is `sigdata`. -/
def methodById (c : Client) (abi : List String) (sigdata : List Nat) : Option String :=
  abi.find? (fun name => c.methodID name == sigdata)

/-- The approval amount, the largest `uint256`. -/
def maxApproval : Int :=
  115792089237316195423570985008687907853269984665640564039457584007913129639935

/-! ## Bookkeeping -/

/-- One RPC call has been made. -/
def Bot.tick (bot : Bot) : Bot := { bot with clock := bot.clock + 1 }

def Bot.log (bot : Bot) (l : LogLine) : Bot := { bot with logs := bot.logs ++ [l] }

/-- A runtime panic: the process dies. -/
def Bot.panic (bot : Bot) : Bot := { bot with crashed := true }

/-! ## Replica sizing -/

/-- The copy amount: `new(big.Int).Mul(x, big.NewInt(int64(bot.config.CopyPercentage)))`
followed by `Div(_, big.NewInt(100))`, with `x` the master balance (native
input) or the decoded `amountIn` (token input).  `Div` is Euclidean. -/
def copyAmountIn (config : Config) (x : Int) : Int :=
  Int.ediv (x * int64OfFloat64 config.CopyPercentage) 100

/-- The minimum output of the replica: `Mul` by the percentage, `Div` by 100,
`Mul` by 95, `Div` by 100. -/
def copyAmountOutMin (config : Config) (amountOutMin : Int) : Int :=
  Int.ediv (Int.ediv (amountOutMin * int64OfFloat64 config.CopyPercentage) 100 * 95) 100

/-! ## Replica submitter -/

def sendSwapTransaction (c : Client) (bot : Bot) (to_ : Address) (value : Int)
    (data : CallData) : Bot :=
  match c.pendingNonceAt bot.clock bot.followerAddress with
  | none => bot.tick.log .errorGettingNonce
  | some nonce =>
    let bot := bot.tick
    match c.networkID bot.clock with
    | none => bot.tick.log .errorGettingChainID
    | some chainID =>
      let bot := bot.tick
      let tx : Transaction := ⟨nonce, to_, value, bot.config.GasLimit, bot.config.GasPrice, data⟩
      if c.signTx tx chainID = false then bot.log .errorSigningTransaction
      else
        let sent := c.sendTransaction bot.clock tx chainID
        let bot := { bot.tick with broadcasts := bot.broadcasts ++ [tx] }
        if sent = false then bot.log .errorSendingSwapTransaction
        else bot.log (.swapTransactionSent tx)

def callSwapExactETHForTokens (c : Client) (bot : Bot) (amountIn amountOutMin : Int)
    (path : List Address) (to_ : Address) (deadline : Int) : Bot :=
  match pack routerABI "swapExactETHForTokens"
      [.bigInt amountOutMin, .addresses path, .address to_, .bigInt deadline] with
  | none => bot.log .errorPackingSwapData
  | some swapData => sendSwapTransaction c bot bot.config.RouterAddress amountIn swapData

def callSwapExactTokensForETH (c : Client) (bot : Bot) (amountIn amountOutMin : Int)
    (path : List Address) (to_ : Address) (deadline : Int) : Bot :=
  match pack routerABI "swapExactTokensForETH"
      [.bigInt amountIn, .bigInt amountOutMin, .addresses path, .address to_, .bigInt deadline] with
  | none => bot.log .errorPackingSwapData
  | some swapData => sendSwapTransaction c bot bot.config.RouterAddress 0 swapData

def callSwapExactTokensForTokens (c : Client) (bot : Bot) (amountIn amountOutMin : Int)
    (path : List Address) (to_ : Address) (deadline : Int) : Bot :=
  match pack routerABI "swapExactTokensForTokens"
      [.bigInt amountIn, .bigInt amountOutMin, .addresses path, .address to_, .bigInt deadline] with
  | none => bot.log .errorPackingSwapData
  | some swapData => sendSwapTransaction c bot bot.config.RouterAddress 0 swapData

/-- The `fmt.Errorf` a failed `checkAndApproveToken` returns. -/
inductive ApprovalError where
  | packingAllowanceCall
  | packingApproveCall
  | gettingNonce
  | gettingChainID
  | signingTransaction
  | sendingApprovalTransaction
  deriving DecidableEq

/-- Returns the `error` (`none` is `nil`) and the bot.  Parsing the constant
`erc20ABI` and `bind.NewKeyedTransactorWithChainID` with a chain id at hand do
not fail; the closing `time.Sleep` has no effect on the state. -/
def checkAndApproveToken (c : Client) (bot : Bot) (tokenAddr : Address) (amount : Int) :
    Option ApprovalError × Bot :=
  let routerAddr := bot.config.RouterAddress
  match pack erc20ABI "allowance" [.address bot.followerAddress, .address routerAddr] with
  | none => (some .packingAllowanceCall, bot)
  | some allowanceData =>
    let callResult := c.callContract bot.clock tokenAddr allowanceData
    let bot := bot.tick
    let approved : Bool :=
      match callResult with
      | some bytes => decide (amount ≤ setBytes bytes)
      | none => false
    if approved then (none, bot)
    else
      match pack erc20ABI "approve" [.address routerAddr, .bigInt maxApproval] with
      | none => (some .packingApproveCall, bot)
      | some approveData =>
        match c.pendingNonceAt bot.clock bot.followerAddress with
        | none => (some .gettingNonce, bot.tick)
        | some nonce =>
          let bot := bot.tick
          match c.networkID bot.clock with
          | none => (some .gettingChainID, bot.tick)
          | some chainID =>
            let bot := bot.tick
            let tx : Transaction :=
              ⟨bigUint64 (int64 nonce), tokenAddr, 0, 50000, bot.config.GasPrice, approveData⟩
            if c.signTx tx chainID = false then (some .signingTransaction, bot)
            else
              let sent := c.sendTransaction bot.clock tx chainID
              let bot := { bot.tick with broadcasts := bot.broadcasts ++ [tx] }
              if sent = false then (some .sendingApprovalTransaction, bot)
              else (none, bot.log (.tokenApprovalSent tx))

/-! ## Replica sizer -/

/-- The type assertion `v.(*big.Int)`; `none` is the panic of a failed
assertion or of an index out of range. -/
def assertBigInt : Option Value → Option Int
  | some (.bigInt n) => some n
  | _ => none

/-- The type assertion `v.([]common.Address)`. -/
def assertAddresses : Option Value → Option (List Address)
  | some (.addresses p) => some p
  | _ => none

/-- The type assertion `v.(common.Address)`. -/
def assertAddress : Option Value → Option Address
  | some (.address a) => some a
  | _ => none

/-- The four assertions that open `executeETHForTokensSwap`: `amountOutMin`
and `path`. -/
def assertETHForTokens (values : List Value) : Option (Int × List Address) :=
  match assertBigInt values[0]?, assertAddresses values[1]?, assertAddress values[2]?,
      assertBigInt values[3]? with
  | some amountOutMin, some path, some _, some _ => some (amountOutMin, path)
  | _, _, _, _ => none

/-- The five assertions that open the two token-input executors: `amountIn`,
`amountOutMin` and `path`. -/
def assertTokensFor (values : List Value) : Option (Int × Int × List Address) :=
  match assertBigInt values[0]?, assertBigInt values[1]?, assertAddresses values[2]?,
      assertAddress values[3]?, assertBigInt values[4]? with
  | some amountIn, some amountOutMin, some path, some _, some _ =>
    some (amountIn, amountOutMin, path)
  | _, _, _, _, _ => none

def executeETHForTokensSwap (c : Client) (bot : Bot) (values : List Value)
    (_blockNumber : Nat) : Bot :=
  if values.length < 4 then bot.log (.invalidParameters "swapExactETHForTokens")
  else
    match assertETHForTokens values with
    | none => bot.panic
    | some (amountOutMin, path) =>
      match c.balanceAt bot.clock bot.config.MasterWalletAddr with
      | none => bot.tick.log .errorGettingMasterBalance
      | some balance =>
        let bot := bot.tick
        let amountIn := copyAmountIn bot.config balance
        if amountIn = 0 then bot.log .copyAmountTooSmall
        else
          match c.balanceAt bot.clock bot.followerAddress with
          | none => bot.tick.log .errorGettingFollowerBalance
          | some followerBalance =>
            let bot := bot.tick
            if (followerBalance : Int) < amountIn then
              bot.log (.insufficientBNBBalance amountIn followerBalance)
            else
              let outMin := copyAmountOutMin bot.config amountOutMin
              let newDeadline := c.deadline bot.clock
              let bot := (bot.log (.executingSwap "ETH->Tokens" amountIn path)).log (.minOut outMin)
              callSwapExactETHForTokens c bot amountIn outMin path bot.followerAddress newDeadline

/-- The approval step of a token-input executor: the token, the amount, and
what comes back, the `error` and the bot. -/
abbrev ApprovalStep := Client → Bot → Address → Int → Option ApprovalError × Bot

/-- The body of `executeTokensForETHSwap`, with the approval step `approve` in
the place of the call of `bot.checkAndApproveToken`. -/
def executeTokensForETHSwapWith (approve : ApprovalStep) (c : Client) (bot : Bot)
    (values : List Value) (_blockNumber : Nat) : Bot :=
  if values.length < 5 then bot.log (.invalidParameters "swapExactTokensForETH")
  else
    match assertTokensFor values with
    | none => bot.panic
    | some (amountIn, amountOutMin, path) =>
      let amount := copyAmountIn bot.config amountIn
      match path with
      | [] => bot.panic
      | tokenAddr :: _ =>
        match approve c bot tokenAddr amount with
        | (some _, bot) => bot.log .errorWithTokenApproval
        | (none, bot) =>
          let outMin := copyAmountOutMin bot.config amountOutMin
          let newDeadline := c.deadline bot.clock
          let bot := bot.log (.executingSwap "Tokens->ETH" amount path)
          callSwapExactTokensForETH c bot amount outMin path bot.followerAddress newDeadline

def executeTokensForETHSwap (c : Client) (bot : Bot) (values : List Value)
    (blockNumber : Nat) : Bot :=
  executeTokensForETHSwapWith checkAndApproveToken c bot values blockNumber

/-- The body of `executeTokensForTokensSwap`, with the approval step `approve`
in the place of the call of `bot.checkAndApproveToken`. -/
def executeTokensForTokensSwapWith (approve : ApprovalStep) (c : Client) (bot : Bot)
    (values : List Value) (_blockNumber : Nat) : Bot :=
  if values.length < 5 then bot.log (.invalidParameters "swapExactTokensForTokens")
  else
    match assertTokensFor values with
    | none => bot.panic
    | some (amountIn, amountOutMin, path) =>
      let amount := copyAmountIn bot.config amountIn
      match path with
      | [] => bot.panic
      | tokenAddr :: _ =>
        match approve c bot tokenAddr amount with
        | (some _, bot) => bot.log .errorWithTokenApproval
        | (none, bot) =>
          let outMin := copyAmountOutMin bot.config amountOutMin
          let newDeadline := c.deadline bot.clock
          let bot := bot.log (.executingSwap "Tokens->Tokens" amount path)
          callSwapExactTokensForTokens c bot amount outMin path bot.followerAddress newDeadline

def executeTokensForTokensSwap (c : Client) (bot : Bot) (values : List Value)
    (blockNumber : Nat) : Bot :=
  executeTokensForTokensSwapWith checkAndApproveToken c bot values blockNumber

/-! ## Swap decoder -/

/-- The `swapEvent` argument is never read by the source and is left out. -/
def copySwap (c : Client) (bot : Bot) (originalTx : Tx) (blockNumber : Nat) : Bot :=
  let txData := originalTx.data
  if txData.length < 4 then bot
  else
    match methodById c routerABI (txData.take 4) with
    | none => bot.log .couldNotDecodeMethod
    | some name =>
      let bot := bot.log (.swapMethodDetected name)
      match c.unpackInputs name (txData.drop 4) with
      | none => bot.log .errorUnpackingMethodInputs
      | some values =>
        if name = "swapExactETHForTokens" then executeETHForTokensSwap c bot values blockNumber
        else if name = "swapExactTokensForETH" then executeTokensForETHSwap c bot values blockNumber
        else if name = "swapExactTokensForTokens" then
          executeTokensForTokensSwap c bot values blockNumber
        else bot.log (.unsupportedSwapMethod name)

/-- The body of the loop over `receipt.Logs`, for the logs still to visit. -/
def processLogs (c : Client) (tx : Tx) (blockNumber : Nat) : List Log → Bot → Bot
  | [], bot => bot
  | lg :: rest, bot =>
    if bot.crashed then bot
    else if lg.topics.length = 0 then processLogs c tx blockNumber rest bot
    else if lg.topics[0]? ≠ some c.swapEventSig then processLogs c tx blockNumber rest bot
    else if c.unpackSwapEvent lg.data = false then
      processLogs c tx blockNumber rest (bot.log .errorUnpackingSwapEvent)
    else processLogs c tx blockNumber rest (copySwap c bot tx blockNumber)

def processSwapTransaction (c : Client) (bot : Bot) (tx : Tx) (blockNumber : Nat) : Bot :=
  let bot := bot.log (.newSwapDetected tx.hash)
  match c.transactionReceipt bot.clock tx.hash with
  | none => bot.tick.log .errorGettingReceipt
  | some receipt => processLogs c tx blockNumber receipt.logs bot.tick

/-! ## Swap filter -/

/-- The body of the loop over `block.Transactions()`, run on one transaction. -/
def scanTransaction (c : Client) (block : Block) (blockNumber : Nat) (bot : Bot) (tx : Tx) :
    Bot :=
  if bot.crashed then bot
  else if tx.hash ∈ bot.processedTxs then bot
  else
    match c.transactionSender bot.clock tx block.hash 0 with
    | none => bot.tick
    | some sender =>
      let bot := bot.tick
      if sender ≠ bot.config.MasterWalletAddr then bot
      else if tx.to_ ≠ some bot.config.RouterAddress then bot
      else
        let bot := processSwapTransaction c bot tx blockNumber
        if bot.crashed then bot
        else { bot with processedTxs := tx.hash :: bot.processedTxs }

def scanTransactions (c : Client) (block : Block) (blockNumber : Nat) : List Tx → Bot → Bot
  | [], bot => bot
  | tx :: rest, bot =>
    scanTransactions c block blockNumber rest (scanTransaction c block blockNumber bot tx)

def scanBlock (c : Client) (bot : Bot) (blockNumber : Nat) : Bot :=
  match c.blockByNumber bot.clock (int64 blockNumber) with
  | none => bot.tick.log (.errorGettingBlock blockNumber)
  | some block => scanTransactions c block blockNumber block.transactions bot.tick

/-! ## Ledger cursor and scheduler -/

/-- The loop `for blockNum := startBlock; blockNum <= endBlock; blockNum++`.
`none` when the fuel runs out before the loop condition fails. -/
def scanLoop (c : Client) (endBlock : Nat) : Nat → Nat → Bot → Option Bot
  | 0, _, _ => none
  | fuel + 1, blockNum, bot =>
    if bot.crashed then some bot
    else if blockNum ≤ endBlock then
      scanLoop c endBlock fuel (uint64 (blockNum + 1)) (scanBlock c bot blockNum)
    else some bot

/-- One scan pass. -/
def scanNewBlocks (c : Client) (fuel : Nat) (bot : Bot) : Option Bot :=
  if bot.crashed then some bot
  else
    match c.headerByNumber bot.clock with
    | none => some (bot.tick.log .errorGettingLatestBlock)
    | some number =>
      let bot := bot.tick
      let latestBlock := uint64 number
      let startBlock := uint64 (bot.lastBlockNumber + 1)
      if startBlock > latestBlock then some bot
      else
        let maxBlocks := 10
        let endBlock := uint64Sub (uint64 (startBlock + maxBlocks)) 1
        let endBlock := if endBlock > latestBlock then latestBlock else endBlock
        let bot := bot.log (.scanningBlocks startBlock endBlock)
        match scanLoop c endBlock fuel startBlock bot with
        | none => none
        | some bot => if bot.crashed then some bot else some { bot with lastBlockNumber := endBlock }

/-- The ticks of `startMonitoring`: one scan pass per tick, each with its own
fuel. -/
def startMonitoring (c : Client) (fuel : Nat) : Nat → Bot → Option Bot
  | 0, bot => some bot
  | ticks + 1, bot =>
    match scanNewBlocks c fuel bot with
    | none => none
    | some bot => startMonitoring c fuel ticks bot

/-- The start of `main`, up to the call of `startMonitoring`: `none` is a
`log.Fatalf`. -/
def main (c : Client) (config : Config) : Option Bot :=
  if c.dial = false then none
  else
    match c.followerKey with
    | none => none
    | some followerAddress =>
      match c.headerByNumber 0 with
      | none => none
      | some number =>
        some {
          config := config
          followerAddress := followerAddress
          lastBlockNumber := uint64 number
          processedTxs := []
          clock := 1
          logs := []
          broadcasts := []
          crashed := false }

/-! ## Predicates on the collaborators and on bot states -/

/-- The codec keeps the contract of `abi.Arguments.Unpack`: the values have the
Go types of the method inputs, so that no type assertion of an executor fails,
and the decoded token path of a token-input swap is not empty. -/
def Client.SafeCodec (c : Client) : Prop :=
  ∀ name data values, c.unpackInputs name data = some values →
    (name = "swapExactETHForTokens" → ∃ r, assertETHForTokens values = some r) ∧
    (name = "swapExactTokensForETH" ∨ name = "swapExactTokensForTokens" →
      ∃ amountIn amountOutMin tokenAddr rest,
        assertTokensFor values = some (amountIn, amountOutMin, tokenAddr :: rest))

/-- What the methods below `scanNewBlocks` never write: the configuration, the
follower address and the cursor. -/
def Bot.fixed (bot : Bot) : Config × Address × Nat :=
  (bot.config, bot.followerAddress, bot.lastBlockNumber)

/-- The transaction a log line reports as handed to `processSwapTransaction`. -/
def LogLine.detected : LogLine → Option Hash
  | .newSwapDetected txHash => some txHash
  | _ => none

/-- The transactions handed to `processSwapTransaction` so far, oldest first:
the method opens by logging the hash of its argument. -/
def Bot.passed (bot : Bot) : List Hash := bot.logs.filterMap LogLine.detected

/-- What the methods below `processSwapTransaction` never write: the
configuration, the follower address, the cursor, the dedup ledger and the list
of transactions handed to `processSwapTransaction`. -/
def Bot.kept (bot : Bot) : Config × Address × Nat × List Hash × List Hash :=
  (bot.config, bot.followerAddress, bot.lastBlockNumber, bot.processedTxs, bot.passed)

/-- The conditions under which the loop of `scanBlock`, reaching `tx` with the
bot in state `bot`, hands it to `processSwapTransaction`: the loop is still
running, the hash is not in the dedup ledger, the sender resolves to the master
address, the destination is the router. -/
def selected (c : Client) (block : Block) (bot : Bot) (tx : Tx) : Bool :=
  !bot.crashed && decide (tx.hash ∉ bot.processedTxs) &&
    decide (c.transactionSender bot.clock tx block.hash 0 = some bot.config.MasterWalletAddr) &&
    decide (tx.to_ = some bot.config.RouterAddress)

/-- The three conditions of the filter alone, for `tx` reached in state `bot`:
the hash is not in the dedup ledger, the sender resolves to the master address,
the destination is the router. -/
def eligible (c : Client) (block : Block) (bot : Bot) (tx : Tx) : Bool :=
  decide (tx.hash ∉ bot.processedTxs) &&
    decide (c.transactionSender bot.clock tx block.hash 0 = some bot.config.MasterWalletAddr) &&
    decide (tx.to_ = some bot.config.RouterAddress)

/-- The transactions of a block paired with the state in which the loop of
`scanBlock` reaches each of them. -/
def visits (c : Client) (block : Block) (blockNumber : Nat) : List Tx → Bot → List (Bot × Tx)
  | [], _ => []
  | tx :: rest, bot =>
    (bot, tx) :: visits c block blockNumber rest (scanTransaction c block blockNumber bot tx)



/-! ## Concrete collaborators and states, for evaluation -/

/-- A node that answers no RPC, with a codec that knows no selector. -/
def offlineClient : Client where
  headerByNumber := fun _ => none
  blockByNumber := fun _ _ => none
  transactionSender := fun _ _ _ _ => none
  transactionReceipt := fun _ _ => none
  balanceAt := fun _ _ => none
  callContract := fun _ _ _ => none
  pendingNonceAt := fun _ _ => none
  networkID := fun _ => none
  sendTransaction := fun _ _ _ => false
  deadline := fun _ => 0
  methodID := fun _ => []
  unpackInputs := fun _ _ => none
  unpackSwapEvent := fun _ => false
  swapEventSig := 0
  signTx := fun _ _ => false
  dial := false
  followerKey := none

/-- A node that reports the head `head` and fails every other RPC. -/
def headOnlyClient (head : Nat) : Client :=
  { offlineClient with headerByNumber := fun _ => some head, dial := true, followerKey := some 3 }

/-- The selectors of the three router functions. -/
def demoMethodID (name : String) : List Nat :=
  if name = "swapExactETHForTokens" then [0x7f, 0xf3, 0x6a, 0xb5]
  else if name = "swapExactTokensForETH" then [0x18, 0xcb, 0xaf, 0xe5]
  else if name = "swapExactTokensForTokens" then [0x38, 0xed, 0x17, 0x39]
  else []

/-- A node with head `head` that serves the blocks `blocks` and the receipts
`receipts`, resolves the sender of every transaction to `senders`, reports the
balance `masterBalance` for address 1 and `followerBalance` for any other,
accepts every broadcast, and decodes call data with `decode`. -/
def chainClient (head : Nat) (blocks : Int → Option Block) (receipts : Hash → Option Receipt)
    (senders : Hash → Option Address) (masterBalance followerBalance : Nat)
    (decode : String → List Nat → Option (List Value)) : Client where
  headerByNumber := fun _ => some head
  blockByNumber := fun _ n => blocks n
  transactionSender := fun _ tx _ _ => senders tx.hash
  transactionReceipt := fun _ h => receipts h
  balanceAt := fun _ a => if a = 1 then some masterBalance else some followerBalance
  callContract := fun _ _ _ => some [0]
  pendingNonceAt := fun clock _ => some clock
  networkID := fun _ => some 56
  sendTransaction := fun _ _ _ => true
  deadline := fun _ => 1700001200
  methodID := demoMethodID
  unpackInputs := decode
  unpackSwapEvent := fun _ => true
  swapEventSig := 0xd78ad95f
  signTx := fun _ _ => true
  dial := true
  followerKey := some 3

/-- Master `1`, router `2`, the given copy percentage. -/
def demoConfig (percentage : ℚ) : Config :=
  { MasterWalletAddr := 1, CopyPercentage := percentage, RouterAddress := 2,
    GasPrice := 5000000000, GasLimit := 300000 }

/-- A freshly started bot of follower `3` whose cursor is `lastBlockNumber`. -/
def demoBot (percentage : ℚ) (lastBlockNumber : Nat) : Bot :=
  { config := demoConfig percentage, followerAddress := 3, lastBlockNumber := lastBlockNumber,
    processedTxs := [], clock := 0, logs := [], broadcasts := [], crashed := false }

/-- A master call of the router with selector `swapExactETHForTokens`. -/
def nativeSwapTx : Tx :=
  { hash := 77, to_ := some 2, data := [0x7f, 0xf3, 0x6a, 0xb5, 0], value := 5 }

/-- A master call of the router with selector `swapExactTokensForETH`. -/
def tokenSwapTx : Tx :=
  { hash := 78, to_ := some 2, data := [0x18, 0xcb, 0xaf, 0xe5, 0], value := 0 }

/-- A `Swap` event of a pair contract. -/
def swapLog : Log := { topics := [0xd78ad95f, 2, 3], data := [] }

/-- Block 101 holds `nativeSwapTx`, block 102 cannot be fetched, block 103 is
empty; the swap went through one pair. -/
def demoChain : Client :=
  chainClient 103
    (fun n => if n = 101 then some ⟨501, [nativeSwapTx]⟩ else if n = 103 then some ⟨503, []⟩
      else none)
    (fun h => if h = 77 then some ⟨[swapLog]⟩ else none)
    (fun _ => some 1) 10000 1000000
    (fun _ _ => some [.bigInt 200, .addresses [10, 11], .address 1, .bigInt 1700000000])

/-- Block 101 holds `tokenSwapTx`, whose call data decodes to an empty token
path. -/
def emptyPathChain : Client :=
  chainClient 101
    (fun n => if n = 101 then some ⟨501, [tokenSwapTx]⟩ else none)
    (fun h => if h = 78 then some ⟨[swapLog]⟩ else none)
    (fun _ => some 1) 10000 1000000
    (fun _ _ => some [.bigInt 1000, .bigInt 200, .addresses [], .address 1, .bigInt 1700000000])

/-- Call data decoding of the demo chains: a native-input swap with minimum
output 200, a token-input swap of 1000 with minimum output 200, both along the
token path `path`. -/
def demoDecode (path : List Address) (name : String) (_data : List Nat) : Option (List Value) :=
  if name = "swapExactETHForTokens" then
    some [.bigInt 200, .addresses path, .address 1, .bigInt 1700000000]
  else some [.bigInt 1000, .bigInt 200, .addresses path, .address 1, .bigInt 1700000000]

/-- The transactions of block 101 of `mixedChain`, in order: one already in the
dedup ledger, one of another sender, one to another contract, a contract
creation, a native-input swap of the master, a token-input swap of the master,
and the native-input swap once more. -/
def mixedTransactions : List Tx :=
  [ { hash := 70, to_ := some 2, data := [0x7f, 0xf3, 0x6a, 0xb5, 0], value := 1 },
    { hash := 71, to_ := some 2, data := [0x7f, 0xf3, 0x6a, 0xb5, 0], value := 1 },
    { hash := 72, to_ := some 5, data := [0x7f, 0xf3, 0x6a, 0xb5, 0], value := 1 },
    { hash := 73, to_ := none, data := [], value := 0 },
    nativeSwapTx,
    tokenSwapTx,
    nativeSwapTx ]

/-- Head 101; block 101 holds `mixedTransactions`; the sender of transaction 71
is address 9, that of every other is the master. -/
def mixedChain : Client :=
  chainClient 101
    (fun n => if n = 101 then some ⟨501, mixedTransactions⟩ else none)
    (fun _ => some ⟨[swapLog]⟩)
    (fun h => if h = 71 then some 9 else some 1) 10000 1000000
    (demoDecode [10, 11])

/-- Head 101; block 101 holds `nativeSwapTx` alone, a swap along three tokens
whose receipt carries the `Swap` events of the two pairs it went through. -/
def twoHopChain : Client :=
  chainClient 101
    (fun n => if n = 101 then some ⟨501, [nativeSwapTx]⟩ else none)
    (fun h => if h = 77 then some ⟨[swapLog, swapLog]⟩ else none)
    (fun _ => some 1) 10000 1000000
    (demoDecode [10, 11, 12])

/-- Head 101; block 101 holds `tokenSwapTx` alone, a token-input swap of 1000
along the path `[10, 11]`; every RPC succeeds. -/
def tokenChain : Client :=
  chainClient 101
    (fun n => if n = 101 then some ⟨501, [tokenSwapTx]⟩ else none)
    (fun h => if h = 78 then some ⟨[swapLog]⟩ else none)
    (fun _ => some 1) 10000 1000000
    (demoDecode [10, 11])

/-- As `demoChain`, with a follower balance of 10. -/
def poorFollowerChain : Client :=
  chainClient 103
    (fun n => if n = 101 then some ⟨501, [nativeSwapTx]⟩ else none)
    (fun h => if h = 77 then some ⟨[swapLog]⟩ else none)
    (fun _ => some 1) 10000 10
    (demoDecode [10, 11])

/-! ## The skip of an unknown selector, and the empty token path -/

/-- The `Swap` events of a receipt that reach `copySwap`: first topic the event
signature, data that unpacks. -/
def swapEvents (c : Client) (logs : List Log) : List Log :=
  logs.filter (fun lg => decide (lg.topics[0]? = some c.swapEventSig) && c.unpackSwapEvent lg.data)

/-- What the loop over the receipt logs writes to the log when the method of
the transaction cannot be decoded: one line per `Swap` event, the skip when its
data unpacks and the unpacking error when it does not. -/
def eventLines (c : Client) : List Log → List LogLine
  | [] => []
  | lg :: rest =>
    if lg.topics[0]? = some c.swapEventSig then
      (if c.unpackSwapEvent lg.data then LogLine.couldNotDecodeMethod
        else LogLine.errorUnpackingSwapEvent) :: eventLines c rest
    else eventLines c rest

/-- The number of skips logged so far (`Could not decode method`). -/
def Bot.skips (bot : Bot) : Nat := bot.logs.count .couldNotDecodeMethod

/-- A master call of the router with the selector of `addLiquidityETH`, which
`routerABI` does not declare. -/
def unknownSelectorTx : Tx :=
  { hash := 80, to_ := some 2, data := [0xf3, 0x05, 0xd7, 0x19, 0], value := 5 }

/-- A node on which every RPC succeeds and the receipt of every transaction
holds the logs `logs`. -/
def receiptClient (logs : List Log) : Client :=
  chainClient 101 (fun _ => none) (fun _ => some ⟨logs⟩) (fun _ => some 1) 10000 1000000
    (demoDecode [10, 11])

/-- Head 101; block 101 holds `tokenSwapTx`, whose token path decodes empty,
followed by `nativeSwapTx`, a native-input swap along `[10, 11]`. -/
def emptyPathFirstChain : Client :=
  chainClient 101
    (fun n => if n = 101 then some ⟨501, [tokenSwapTx, nativeSwapTx]⟩ else none)
    (fun _ => some ⟨[swapLog]⟩)
    (fun _ => some 1) 10000 1000000
    (fun name _ =>
      if name = "swapExactETHForTokens" then
        some [.bigInt 200, .addresses [10, 11], .address 1, .bigInt 1700000000]
      else some [.bigInt 1000, .bigInt 200, .addresses [], .address 1, .bigInt 1700000000])

/-- An approval step that reports success and does nothing, as when the
allowance is found sufficient. -/
def approved : ApprovalStep := fun _ bot _ _ => (none, bot)

theorem pack_allowance (args : List Value) : pack erc20ABI "allowance" args = none := by
  simp [pack, erc20ABI]

/-- The allowance call cannot be packed: `erc20ABI` declares no `allowance`. -/
theorem checkAndApproveToken_eq (c : Client) (bot : Bot) (t : Address) (amount : Int) :
    checkAndApproveToken c bot t amount = (some .packingAllowanceCall, bot) := by
  simp only [checkAndApproveToken, pack_allowance]

theorem Bot.fixed_of_kept {a b : Bot} (h : a.kept = b.kept) : a.fixed = b.fixed := by
  simp only [Bot.kept, Bot.fixed, Prod.mk.injEq] at h ⊢
  exact ⟨h.1, h.2.1, h.2.2.1⟩

theorem Bot.kept_log (bot : Bot) (l : LogLine) (h : l.detected = none) :
    (bot.log l).kept = bot.kept := by
  simp [Bot.kept, Bot.log, Bot.passed, List.filterMap_append, h]

theorem Bot.kept_tick (bot : Bot) : bot.tick.kept = bot.kept := rfl

theorem Bot.kept_panic (bot : Bot) : bot.panic.kept = bot.kept := rfl

theorem sendSwapTransaction_kept (c : Client) (bot : Bot) (t : Address) (v : Int)
    (d : CallData) : (sendSwapTransaction c bot t v d).kept = bot.kept := by
  simp only [sendSwapTransaction]
  repeat' split
  all_goals first
    | rfl
    | (simp [Bot.kept_log, Bot.kept_tick, LogLine.detected] <;> rfl)

theorem sendSwapTransaction_crashed (c : Client) (bot : Bot) (t : Address) (v : Int)
    (d : CallData) : (sendSwapTransaction c bot t v d).crashed = bot.crashed := by
  simp only [sendSwapTransaction, Bot.tick, Bot.log]
  repeat' split
  all_goals simp

theorem callSwapExactETHForTokens_kept (c : Client) (bot : Bot) (a m : Int)
    (p : List Address) (t : Address) (d : Int) :
    (callSwapExactETHForTokens c bot a m p t d).kept = bot.kept := by
  unfold callSwapExactETHForTokens
  split
  · simp [Bot.kept_log, LogLine.detected]
  · exact sendSwapTransaction_kept _ _ _ _ _

theorem callSwapExactETHForTokens_crashed (c : Client) (bot : Bot) (a m : Int)
    (p : List Address) (t : Address) (d : Int) :
    (callSwapExactETHForTokens c bot a m p t d).crashed = bot.crashed := by
  unfold callSwapExactETHForTokens
  split
  · simp [Bot.log]
  · exact sendSwapTransaction_crashed _ _ _ _ _

theorem executeETHForTokensSwap_kept (c : Client) (bot : Bot) (values : List Value)
    (n : Nat) : (executeETHForTokensSwap c bot values n).kept = bot.kept := by
  simp only [executeETHForTokensSwap]
  repeat' split
  all_goals first
    | rfl
    | simp [Bot.kept_log, Bot.kept_tick, Bot.kept_panic, LogLine.detected, callSwapExactETHForTokens_kept]

theorem executeETHForTokensSwap_crashed (c : Client) (bot : Bot) (values : List Value)
    (n : Nat) (h : ∃ r, assertETHForTokens values = some r) :
    (executeETHForTokensSwap c bot values n).crashed = bot.crashed := by
  obtain ⟨r, hr⟩ := h
  simp only [executeETHForTokensSwap, hr]
  repeat' split
  all_goals first
    | (rw [callSwapExactETHForTokens_crashed]; simp [Bot.tick, Bot.log])
    | simp [Bot.tick, Bot.log]

/-- What the token-for-native executor comes to, the approval step failing as
it does. -/
theorem executeTokensForETHSwap_eq (c : Client) (bot : Bot) (values : List Value) (n : Nat) :
    executeTokensForETHSwap c bot values n =
      if values.length < 5 then bot.log (.invalidParameters "swapExactTokensForETH")
      else match assertTokensFor values with
        | none => bot.panic
        | some (_, _, []) => bot.panic
        | some (_, _, _ :: _) => bot.log .errorWithTokenApproval := by
  simp only [executeTokensForETHSwap, executeTokensForETHSwapWith, checkAndApproveToken_eq]
  repeat' split
  all_goals simp_all

/-- What the token-for-token executor comes to, the approval step failing as
it does. -/
theorem executeTokensForTokensSwap_eq (c : Client) (bot : Bot) (values : List Value)
    (n : Nat) :
    executeTokensForTokensSwap c bot values n =
      if values.length < 5 then bot.log (.invalidParameters "swapExactTokensForTokens")
      else match assertTokensFor values with
        | none => bot.panic
        | some (_, _, []) => bot.panic
        | some (_, _, _ :: _) => bot.log .errorWithTokenApproval := by
  simp only [executeTokensForTokensSwap, executeTokensForTokensSwapWith,
    checkAndApproveToken_eq]
  repeat' split
  all_goals simp_all

theorem executeTokensForETHSwap_kept (c : Client) (bot : Bot) (values : List Value)
    (n : Nat) : (executeTokensForETHSwap c bot values n).kept = bot.kept := by
  rw [executeTokensForETHSwap_eq]
  repeat' split
  all_goals first
    | rfl
    | simp [Bot.kept_log, Bot.kept_tick, Bot.kept_panic, LogLine.detected]

theorem executeTokensForTokensSwap_kept (c : Client) (bot : Bot) (values : List Value)
    (n : Nat) : (executeTokensForTokensSwap c bot values n).kept = bot.kept := by
  rw [executeTokensForTokensSwap_eq]
  repeat' split
  all_goals first
    | rfl
    | simp [Bot.kept_log, Bot.kept_tick, Bot.kept_panic, LogLine.detected]

theorem executeTokensForETHSwap_crashed (c : Client) (bot : Bot) (values : List Value)
    (n : Nat)
    (h : ∃ amountIn amountOutMin tokenAddr rest,
      assertTokensFor values = some (amountIn, amountOutMin, tokenAddr :: rest)) :
    (executeTokensForETHSwap c bot values n).crashed = bot.crashed := by
  obtain ⟨a, m, t, rest, hr⟩ := h
  rw [executeTokensForETHSwap_eq, hr]
  split <;> simp [Bot.log]

theorem executeTokensForTokensSwap_crashed (c : Client) (bot : Bot) (values : List Value)
    (n : Nat)
    (h : ∃ amountIn amountOutMin tokenAddr rest,
      assertTokensFor values = some (amountIn, amountOutMin, tokenAddr :: rest)) :
    (executeTokensForTokensSwap c bot values n).crashed = bot.crashed := by
  obtain ⟨a, m, t, rest, hr⟩ := h
  rw [executeTokensForTokensSwap_eq, hr]
  split <;> simp [Bot.log]

/-! ## What the decoder and the filter leave alone -/

theorem copySwap_kept (c : Client) (bot : Bot) (tx : Tx) (n : Nat) :
    (copySwap c bot tx n).kept = bot.kept := by
  simp only [copySwap]
  repeat' split
  all_goals first
    | rfl
    | simp [Bot.kept_log, Bot.kept_tick, Bot.kept_panic, LogLine.detected, executeETHForTokensSwap_kept, executeTokensForETHSwap_kept,
    executeTokensForTokensSwap_kept]

theorem copySwap_crashed (c : Client) (hc : c.SafeCodec) (bot : Bot) (tx : Tx) (n : Nat) :
    (copySwap c bot tx n).crashed = bot.crashed := by
  simp only [copySwap]
  split
  · rfl
  · split
    · rfl
    · rename_i name _
      split
      · rfl
      · rename_i values hv
        have h := hc name _ values hv
        split
        · rw [executeETHForTokensSwap_crashed _ _ _ _ (h.1 ‹_›)]; rfl
        · split
          · rw [executeTokensForETHSwap_crashed _ _ _ _ (h.2 (Or.inl ‹_›))]; rfl
          · split
            · rw [executeTokensForTokensSwap_crashed _ _ _ _ (h.2 (Or.inr ‹_›))]; rfl
            · rfl

theorem processLogs_kept (c : Client) (tx : Tx) (n : Nat) (logs : List Log) (bot : Bot) :
    (processLogs c tx n logs bot).kept = bot.kept := by
  induction logs generalizing bot with
  | nil => rfl
  | cons lg rest ih =>
    simp only [processLogs]
    repeat' split
    all_goals first
      | rfl
      | simp [ih, Bot.kept_log, Bot.kept_tick, Bot.kept_panic, LogLine.detected, copySwap_kept]

theorem processLogs_crashed (c : Client) (hc : c.SafeCodec) (tx : Tx) (n : Nat)
    (logs : List Log) (bot : Bot) :
    (processLogs c tx n logs bot).crashed = bot.crashed := by
  induction logs generalizing bot with
  | nil => rfl
  | cons lg rest ih =>
    simp only [processLogs]
    repeat' split
    all_goals first
      | rfl
      | (rw [ih, copySwap_crashed c hc])
      | (rw [ih]; done)
      | (rw [ih]; rfl)

/-- `processSwapTransaction` reports its argument once and writes neither the
cursor nor the dedup ledger. -/
theorem processSwapTransaction_kept (c : Client) (bot : Bot) (tx : Tx) (n : Nat) :
    (processSwapTransaction c bot tx n).kept =
      (bot.config, bot.followerAddress, bot.lastBlockNumber, bot.processedTxs,
        bot.passed ++ [tx.hash]) := by
  have h : (bot.log (.newSwapDetected tx.hash)).kept =
      (bot.config, bot.followerAddress, bot.lastBlockNumber, bot.processedTxs,
        bot.passed ++ [tx.hash]) := by
    simp [Bot.kept, Bot.log, Bot.passed, List.filterMap_append, LogLine.detected]
  simp only [processSwapTransaction]
  split
  · rw [Bot.kept_log _ .errorGettingReceipt rfl, Bot.kept_tick, h]
  · rw [processLogs_kept, Bot.kept_tick, h]

theorem processSwapTransaction_fixed (c : Client) (bot : Bot) (tx : Tx) (n : Nat) :
    (processSwapTransaction c bot tx n).fixed = bot.fixed := by
  have h := processSwapTransaction_kept c bot tx n
  simp only [Bot.kept, Prod.mk.injEq] at h
  simp only [Bot.fixed, Prod.mk.injEq]
  exact ⟨h.1, h.2.1, h.2.2.1⟩

theorem processSwapTransaction_crashed (c : Client) (hc : c.SafeCodec) (bot : Bot) (tx : Tx)
    (n : Nat) : (processSwapTransaction c bot tx n).crashed = bot.crashed := by
  simp only [processSwapTransaction]
  split
  · rfl
  · rw [processLogs_crashed c hc]; rfl

theorem scanTransaction_fixed (c : Client) (block : Block) (n : Nat) (bot : Bot) (tx : Tx) :
    (scanTransaction c block n bot tx).fixed = bot.fixed := by
  simp only [scanTransaction]
  repeat' split
  all_goals first
    | rfl
    | (rw [processSwapTransaction_fixed]; rfl)
    | (show (processSwapTransaction c _ tx n).fixed = _; rw [processSwapTransaction_fixed]; rfl)

theorem scanTransaction_crashed (c : Client) (hc : c.SafeCodec) (block : Block) (n : Nat)
    (bot : Bot) (tx : Tx) : (scanTransaction c block n bot tx).crashed = bot.crashed := by
  simp only [scanTransaction]
  repeat' split
  all_goals first
    | rfl
    | (rw [processSwapTransaction_crashed c hc]; rfl)

theorem scanTransactions_fixed (c : Client) (block : Block) (n : Nat) (txs : List Tx)
    (bot : Bot) : (scanTransactions c block n txs bot).fixed = bot.fixed := by
  induction txs generalizing bot with
  | nil => rfl
  | cons tx rest ih => simp only [scanTransactions]; rw [ih, scanTransaction_fixed]

theorem scanTransactions_crashed (c : Client) (hc : c.SafeCodec) (block : Block) (n : Nat)
    (txs : List Tx) (bot : Bot) :
    (scanTransactions c block n txs bot).crashed = bot.crashed := by
  induction txs generalizing bot with
  | nil => rfl
  | cons tx rest ih => simp only [scanTransactions]; rw [ih, scanTransaction_crashed c hc]

theorem scanBlock_fixed (c : Client) (bot : Bot) (n : Nat) :
    (scanBlock c bot n).fixed = bot.fixed := by
  simp only [scanBlock]
  split
  · rfl
  · rw [scanTransactions_fixed]; rfl

theorem scanBlock_crashed (c : Client) (hc : c.SafeCodec) (bot : Bot) (n : Nat) :
    (scanBlock c bot n).crashed = bot.crashed := by
  simp only [scanBlock]
  split
  · rfl
  · rw [scanTransactions_crashed c hc]; rfl

/-! ## The filter -/

theorem scanTransaction_passed (c : Client) (block : Block) (n : Nat) (bot : Bot) (tx : Tx) :
    (scanTransaction c block n bot tx).passed =
      bot.passed ++ (if selected c block bot tx then [tx.hash] else []) := by
  have hp : (processSwapTransaction c bot.tick tx n).passed = bot.passed ++ [tx.hash] := by
    have h := processSwapTransaction_kept c bot.tick tx n
    simp only [Bot.kept, Prod.mk.injEq] at h
    exact h.2.2.2.2
  have e₁ : bot.tick.config = bot.config := rfl
  by_cases hcr : bot.crashed = true
  · simp [scanTransaction, selected, hcr]
  · by_cases hmem : tx.hash ∈ bot.processedTxs
    · simp [scanTransaction, selected, hcr, hmem]
    · cases hs : c.transactionSender bot.clock tx block.hash 0 with
      | none => simp [scanTransaction, selected, hcr, hmem, hs, Bot.tick, Bot.passed]
      | some sender =>
        by_cases hm : sender = bot.config.MasterWalletAddr
        · by_cases ht : tx.to_ = some bot.config.RouterAddress
          · have hsel : selected c block bot tx = true := by
              simp [selected, hcr, hmem, hs, hm, ht]
            rw [hsel, if_pos rfl]
            simp only [scanTransaction, hs, e₁]
            rw [if_neg hcr, if_neg hmem, if_neg (by simp [hm]), if_neg (by simp [ht])]
            split
            · exact hp
            · exact hp
          · simp [scanTransaction, selected, hcr, hmem, hs, hm, ht, Bot.tick, Bot.passed]
        · simp [scanTransaction, selected, hcr, hmem, hs, hm, Bot.tick, Bot.passed]

theorem scanTransactions_passed (c : Client) (block : Block) (n : Nat) (txs : List Tx)
    (bot : Bot) :
    (scanTransactions c block n txs bot).passed =
      bot.passed ++ ((visits c block n txs bot).filter
        (fun v => selected c block v.1 v.2)).map (fun v => v.2.hash) := by
  induction txs generalizing bot with
  | nil => simp [scanTransactions, visits]
  | cons tx rest ih =>
    simp only [scanTransactions, visits]
    rw [ih, scanTransaction_passed, List.filter_cons]
    split <;> simp

theorem scanTransaction_of_mem (c : Client) (block : Block) (n : Nat) (bot : Bot) (tx : Tx)
    (h : tx.hash ∈ bot.processedTxs) : scanTransaction c block n bot tx = bot := by
  simp [scanTransaction, h]

theorem scanTransaction_of_not_selected (c : Client) (block : Block) (n : Nat) (bot : Bot)
    (tx : Tx) (h : selected c block bot tx = false) :
    scanTransaction c block n bot tx = bot ∨ scanTransaction c block n bot tx = bot.tick := by
  have e₁ : bot.tick.config = bot.config := rfl
  by_cases hcr : bot.crashed = true
  · simp [scanTransaction, hcr]
  · by_cases hmem : tx.hash ∈ bot.processedTxs
    · simp [scanTransaction, hmem]
    · cases hs : c.transactionSender bot.clock tx block.hash 0 with
      | none => simp [scanTransaction, hcr, hmem, hs]
      | some sender =>
        by_cases hm : sender = bot.config.MasterWalletAddr
        · by_cases ht : tx.to_ = some bot.config.RouterAddress
          · simp [selected, hcr, hmem, hs, hm, ht] at h
          · simp [scanTransaction, hcr, hmem, hs, hm, ht, e₁]
        · simp [scanTransaction, hcr, hmem, hs, hm, e₁]

/-! ## The scan loop -/

theorem uint64_of_lt {n : Nat} (h : n < 2 ^ 64) : uint64 n = n := by
  unfold uint64; omega

theorem uint64Sub_succ_one {n : Nat} (h : n < 2 ^ 64) : uint64Sub (uint64 (n + 1)) 1 = n := by
  unfold uint64Sub uint64; omega

/-- With `endBlock` below the largest `uint64`, the loop ends once it has `endBlock + 2 -
blockNum` units of fuel, and it writes neither the cursor nor the configuration. -/
theorem scanLoop_terminates (c : Client) (endBlock : Nat) (hend : endBlock + 1 < 2 ^ 64) :
    ∀ (fuel blockNum : Nat) (bot : Bot), blockNum ≤ endBlock + 1 →
      endBlock + 2 - blockNum ≤ fuel →
      ∃ bot', scanLoop c endBlock fuel blockNum bot = some bot' ∧ bot'.fixed = bot.fixed ∧
        (c.SafeCodec → bot'.crashed = bot.crashed) := by
  intro fuel
  induction fuel with
  | zero => intro blockNum bot h₁ h₂; omega
  | succ fuel ih =>
    intro blockNum bot h₁ h₂
    simp only [scanLoop]
    split
    · exact ⟨bot, rfl, rfl, fun _ => rfl⟩
    · split
      · rename_i hle
        have hu : uint64 (blockNum + 1) = blockNum + 1 := uint64_of_lt (by omega)
        rw [hu]
        obtain ⟨bot', h, hf, hcr⟩ :=
          ih (blockNum + 1) (scanBlock c bot blockNum) (by omega) (by omega)
        exact ⟨bot', h, by rw [hf, scanBlock_fixed],
          fun hc => by rw [hcr hc, scanBlock_crashed c hc]⟩
      · exact ⟨bot, rfl, rfl, fun _ => rfl⟩

/-- More fuel does not change the result of a loop that has ended. -/
theorem scanLoop_mono (c : Client) (endBlock : Nat) :
    ∀ (fuel fuel' blockNum : Nat) (bot b : Bot), fuel ≤ fuel' →
      scanLoop c endBlock fuel blockNum bot = some b →
      scanLoop c endBlock fuel' blockNum bot = some b := by
  intro fuel
  induction fuel with
  | zero => intro fuel' blockNum bot b _ h; simp [scanLoop] at h
  | succ fuel ih =>
    intro fuel' blockNum bot b hle h
    obtain ⟨k, rfl⟩ : ∃ k, fuel' = k + 1 := ⟨fuel' - 1, by omega⟩
    simp only [scanLoop] at h ⊢
    split
    · simpa [*] using h
    · rename_i hcr
      rw [if_neg hcr] at h
      split
      · rename_i hle'
        rw [if_pos hle'] at h
        exact ih _ _ _ _ (by omega) h
      · rename_i hle'
        rw [if_neg hle'] at h
        exact h

/-- More fuel does not change the result of a pass that has returned. -/
theorem scanNewBlocks_mono (c : Client) (fuel fuel' : Nat) (bot b : Bot) (hle : fuel ≤ fuel')
    (h : scanNewBlocks c fuel bot = some b) : scanNewBlocks c fuel' bot = some b := by
  simp only [scanNewBlocks] at h ⊢
  by_cases hcr : bot.crashed = true
  · rw [if_pos hcr] at h ⊢; exact h
  · rw [if_neg hcr] at h ⊢
    cases hn : c.headerByNumber bot.clock with
    | none => simpa [hn] using h
    | some number =>
      simp only [hn] at h ⊢
      split
      · rename_i hgt
        rw [if_pos hgt] at h
        exact h
      · rename_i hgt
        rw [if_neg hgt] at h
        revert h
        generalize hl : scanLoop c _ fuel _ _ = r
        cases r with
        | none => intro h; simp at h
        | some b' =>
          intro h
          rw [scanLoop_mono c _ fuel fuel' _ _ b' hle hl]
          exact h

/-- A pass returns the same bot with any fuel that lets it return. -/
theorem scanNewBlocks_det (c : Client) (f₁ f₂ : Nat) (bot b₁ b₂ : Bot)
    (h₁ : scanNewBlocks c f₁ bot = some b₁) (h₂ : scanNewBlocks c f₂ bot = some b₂) :
    b₁ = b₂ := by
  have e₁ := scanNewBlocks_mono c f₁ (max f₁ f₂) bot b₁ (le_max_left _ _) h₁
  have e₂ := scanNewBlocks_mono c f₂ (max f₁ f₂) bot b₂ (le_max_right _ _) h₂
  rw [e₁] at e₂
  exact Option.some.inj e₂

/-- What a pass with fuel 11 computes holds of the pass with any fuel. -/
theorem pass_property {α : Type} (c : Client) (bot : Bot) {f : Bot → α} {v : α}
    (h : (scanNewBlocks c 11 bot).map f = some v) :
    ∀ fuel bot', scanNewBlocks c fuel bot = some bot' → f bot' = v := by
  intro fuel bot' hb
  cases h₀ : scanNewBlocks c 11 bot with
  | none => simp [h₀] at h
  | some b₀ =>
    rw [h₀] at h
    rw [scanNewBlocks_det c fuel 11 bot bot' b₀ hb h₀]
    simpa using h

/-- On a node that serves no block, a range that ends at the largest `uint64`
is scanned for ever. -/
theorem scanLoop_headOnly_diverges (head : Nat) :
    ∀ (fuel blockNum : Nat) (bot : Bot), blockNum < 2 ^ 64 → bot.crashed = false →
      scanLoop (headOnlyClient head) (2 ^ 64 - 1) fuel blockNum bot = none := by
  intro fuel
  induction fuel with
  | zero => intro blockNum bot _ _; rfl
  | succ fuel ih =>
    intro blockNum bot hlt hcr
    simp only [scanLoop]
    rw [if_neg (by simp [hcr]), if_pos (by omega)]
    apply ih
    · unfold uint64; exact Nat.mod_lt _ (by decide)
    · simp [scanBlock, headOnlyClient, offlineClient, Bot.tick, Bot.log, hcr]

/-! ## The arithmetic of the sizer -/

/-- A whole-number percentage within the `int64` range converts to itself. -/
theorem int64OfFloat64_intCast (p : Int) (hp : -(2 ^ 63) ≤ p ∧ p < 2 ^ 63) :
    int64OfFloat64 (p : ℚ) = p := by
  simp only [int64OfFloat64, Rat.num_intCast, Rat.den_intCast, Nat.cast_one, Int.tdiv_one]
  rw [if_pos hp]

/-- `Div` by 100 is the floor of the exact quotient. -/
theorem ediv_hundred (a : Int) : Int.ediv a 100 = ⌊(a : ℚ) / 100⌋ := by
  have h := Rat.floor_intCast_div_natCast a 100
  simp only [Nat.cast_ofNat] at h
  rw [h]
  rfl

theorem copyAmountIn_eq_floor (config : Config) (x : Int) :
    copyAmountIn config x =
      ⌊(x : ℚ) * (int64OfFloat64 config.CopyPercentage : Int) / 100⌋ := by
  rw [copyAmountIn, ediv_hundred]
  push_cast
  rfl

theorem sendSwapTransaction_broadcasts (c : Client) (bot : Bot) (t : Address) (v : Int)
    (d : CallData) :
    (sendSwapTransaction c bot t v d).broadcasts = bot.broadcasts ∨
      ∃ nonce, (sendSwapTransaction c bot t v d).broadcasts = bot.broadcasts ++
        [{ nonce := nonce, to_ := t, value := v, gasLimit := bot.config.GasLimit,
           gasPrice := bot.config.GasPrice, data := d }] := by
  simp only [sendSwapTransaction, Bot.tick, Bot.log]
  repeat' split
  all_goals first
    | (left; rfl)
    | (right; exact ⟨_, rfl⟩)

theorem uint256Modulus_eq : uint256Modulus = 2 ^ 256 := by
  unfold uint256Modulus; norm_num

/-- Packing the native-input swap: an error when the minimum output or the
deadline is negative. -/
theorem pack_swapExactETHForTokens (m d : Int) (p : List Address) (t : Address) :
    pack routerABI "swapExactETHForTokens" [.bigInt m, .addresses p, .address t, .bigInt d] =
      if m < 0 ∨ d < 0 then none
      else some ⟨"swapExactETHForTokens",
        [.bigInt (m % uint256Modulus), .addresses p, .address t, .bigInt (d % uint256Modulus)]⟩ := by
  have hmem : "swapExactETHForTokens" ∈ routerABI := by decide
  simp only [pack, if_pos hmem, packArgs, packValue]
  by_cases hm : m < 0
  · simp [hm]
  · by_cases hd : d < 0
    · simp [hm, hd]
    · simp [hm, hd]

/-- The native-input executor broadcasts nothing, or exactly one transaction:
then both balances were read, the copy amount is neither zero nor above the
follower balance, and the transaction sends the copy amount to the router with
the scaled minimum output (as a `uint256`), the decoded path, the follower as
recipient and the new deadline. -/
theorem executeETHForTokensSwap_broadcasts (c : Client) (bot : Bot) (values : List Value)
    (n : Nat) :
    (executeETHForTokensSwap c bot values n).broadcasts = bot.broadcasts ∨
      ∃ amountOutMin path B F nonce,
        assertETHForTokens values = some (amountOutMin, path) ∧
        c.balanceAt bot.clock bot.config.MasterWalletAddr = some B ∧
        c.balanceAt (bot.clock + 1) bot.followerAddress = some F ∧
        copyAmountIn bot.config B ≠ 0 ∧ copyAmountIn bot.config B ≤ F ∧
        0 ≤ copyAmountOutMin bot.config amountOutMin ∧
        (executeETHForTokensSwap c bot values n).broadcasts = bot.broadcasts ++
          [{ nonce := nonce, to_ := bot.config.RouterAddress,
             value := copyAmountIn bot.config B,
             gasLimit := bot.config.GasLimit, gasPrice := bot.config.GasPrice,
             data := ⟨"swapExactETHForTokens",
               [.bigInt (copyAmountOutMin bot.config amountOutMin % uint256Modulus),
                 .addresses path, .address bot.followerAddress,
                 .bigInt (c.deadline (bot.clock + 2) % uint256Modulus)]⟩ }] := by
  by_cases hlen : values.length < 4
  · left; simp [executeETHForTokensSwap, hlen, Bot.log]
  cases ha : assertETHForTokens values with
  | none => left; simp [executeETHForTokensSwap, hlen, ha, Bot.panic]
  | some r =>
    obtain ⟨amountOutMin, path⟩ := r
    cases hB : c.balanceAt bot.clock bot.config.MasterWalletAddr with
    | none => left; simp [executeETHForTokensSwap, hlen, ha, hB, Bot.tick, Bot.log]
    | some B =>
      by_cases hz : copyAmountIn bot.config B = 0
      · left; simp [executeETHForTokensSwap, hlen, ha, hB, hz, Bot.tick, Bot.log]
      cases hF : c.balanceAt (bot.clock + 1) bot.followerAddress with
      | none => left; simp [executeETHForTokensSwap, hlen, ha, hB, hz, hF, Bot.tick, Bot.log]
      | some F =>
        by_cases hlt : (F : Int) < copyAmountIn bot.config B
        · left; simp [executeETHForTokensSwap, hlen, ha, hB, hz, hF, hlt, Bot.tick, Bot.log]
        have hex : executeETHForTokensSwap c bot values n =
            callSwapExactETHForTokens c
              ((bot.tick.tick.log (.executingSwap "ETH->Tokens" (copyAmountIn bot.config B)
                path)).log (.minOut (copyAmountOutMin bot.config amountOutMin)))
              (copyAmountIn bot.config B) (copyAmountOutMin bot.config amountOutMin) path
              bot.followerAddress (c.deadline (bot.clock + 2)) := by
          simp only [executeETHForTokensSwap]
          rw [if_neg hlen]
          simp only [ha, hB, Bot.tick, Bot.log, hF]
          rw [if_neg hz, if_neg hlt]
        rw [hex]
        unfold callSwapExactETHForTokens
        rw [pack_swapExactETHForTokens]
        by_cases hneg : copyAmountOutMin bot.config amountOutMin < 0 ∨
            c.deadline (bot.clock + 2) < 0
        · left; rw [if_pos hneg]; rfl
        · rw [if_neg hneg]
          rcases sendSwapTransaction_broadcasts c
            ((bot.tick.tick.log (.executingSwap "ETH->Tokens" (copyAmountIn bot.config B)
              path)).log (.minOut (copyAmountOutMin bot.config amountOutMin)))
            bot.config.RouterAddress (copyAmountIn bot.config B)
            ⟨"swapExactETHForTokens",
              [.bigInt (copyAmountOutMin bot.config amountOutMin % uint256Modulus),
                .addresses path, .address bot.followerAddress,
                .bigInt (c.deadline (bot.clock + 2) % uint256Modulus)]⟩ with h | ⟨nonce, h⟩
          · left; exact h
          · right
            exact ⟨amountOutMin, path, B, F, nonce, rfl, rfl, rfl, hz, not_lt.mp hlt,
              by omega, h⟩

/-! ## The value of the master transaction is never read -/

theorem processLogs_value (c : Client) (tx : Tx) (v : Int) (n : Nat) (logs : List Log)
    (bot : Bot) :
    processLogs c { tx with value := v } n logs bot = processLogs c tx n logs bot := by
  induction logs generalizing bot with
  | nil => rfl
  | cons lg rest ih =>
    simp only [processLogs, ih]
    rfl

theorem assertTokensFor_length (values : List Value) (r : Int × Int × List Address)
    (h : assertTokensFor values = some r) : ¬ values.length < 5 := by
  intro hlt
  have h4 : values[4]? = none := List.getElem?_eq_none (by omega)
  unfold assertTokensFor at h
  rw [h4] at h
  split at h
  · rename_i h5
    simp [assertBigInt] at h5
  · simp at h

/-! ## One pass -/

/-- One pass over a range that does not wrap: it returns, the cursor is the end of
the range unless the pass panicked, and it does not panic with a safe codec. -/
theorem scanNewBlocks_pass (c : Client) (bot : Bot) (H fuel : Nat)
    (hrun : bot.crashed = false)
    (hhead : c.headerByNumber bot.clock = some H)
    (hH : H < 2 ^ 64)
    (hnew : bot.lastBlockNumber + 1 ≤ H)
    (hwrap : bot.lastBlockNumber + 10 < 2 ^ 64)
    (hend : min (bot.lastBlockNumber + 10) H + 1 < 2 ^ 64)
    (hfuel : 11 ≤ fuel) :
    ∃ bot', scanNewBlocks c fuel bot = some bot' ∧
      (bot'.crashed = false → bot'.lastBlockNumber = min (bot.lastBlockNumber + 10) H) ∧
      (c.SafeCodec → bot'.crashed = false) := by
  have hs : uint64 (bot.lastBlockNumber + 1) = bot.lastBlockNumber + 1 :=
    uint64_of_lt (by omega)
  have he : uint64Sub (uint64 (bot.lastBlockNumber + 1 + 10)) 1 = bot.lastBlockNumber + 10 :=
    uint64Sub_succ_one hwrap
  have hmin : (if bot.lastBlockNumber + 10 > H then H else bot.lastBlockNumber + 10) =
      min (bot.lastBlockNumber + 10) H := by
    split <;> omega
  unfold scanNewBlocks
  rw [if_neg (by simp [hrun])]
  simp only [hhead, Bot.tick, hs, he, uint64_of_lt hH, hmin]
  rw [if_neg (by omega)]
  obtain ⟨bot', h, hf, hcr⟩ := scanLoop_terminates c (min (bot.lastBlockNumber + 10) H) hend
    fuel (bot.lastBlockNumber + 1)
    (Bot.log { bot with clock := bot.clock + 1 }
      (.scanningBlocks (bot.lastBlockNumber + 1) (min (bot.lastBlockNumber + 10) H)))
    (by omega) (by omega)
  rw [h]
  by_cases hb : bot'.crashed = true
  · refine ⟨bot', by simp [hb], fun h' => by simp [hb] at h', fun hc => ?_⟩
    rw [hcr hc]; exact hrun
  · refine ⟨{ bot' with lastBlockNumber := min (bot.lastBlockNumber + 10) H }, by simp [hb],
      fun _ => rfl, fun _ => by simpa using hb⟩

/-- A pass that sees a head above the cursor announces and enters the range at
the block after the cursor. -/
theorem scanNewBlocks_enters (c : Client) (bot : Bot) (H fuel : Nat)
    (hrun : ¬ bot.crashed = true)
    (hhead : c.headerByNumber bot.clock = some H)
    (hH : H < 2 ^ 64)
    (hnew : bot.lastBlockNumber + 1 ≤ H)
    (hwrap : bot.lastBlockNumber + 10 < 2 ^ 64) :
    scanNewBlocks c fuel bot =
      match scanLoop c (min (bot.lastBlockNumber + 10) H) fuel (bot.lastBlockNumber + 1)
        (bot.tick.log (.scanningBlocks (bot.lastBlockNumber + 1)
          (min (bot.lastBlockNumber + 10) H))) with
      | none => none
      | some b =>
        if b.crashed then some b
        else some { b with lastBlockNumber := min (bot.lastBlockNumber + 10) H } := by
  have hs : uint64 (bot.lastBlockNumber + 1) = bot.lastBlockNumber + 1 :=
    uint64_of_lt (by omega)
  have he : uint64Sub (uint64 (bot.lastBlockNumber + 1 + 10)) 1 = bot.lastBlockNumber + 10 :=
    uint64Sub_succ_one hwrap
  have hmin : (if bot.lastBlockNumber + 10 > H then H else bot.lastBlockNumber + 10) =
      min (bot.lastBlockNumber + 10) H := by
    split <;> omega
  unfold scanNewBlocks
  rw [if_neg hrun]
  simp only [hhead, Bot.tick, hs, he, uint64_of_lt hH, hmin]
  rw [if_neg (by omega)]

/-- What `main` hands to the scheduler. -/
theorem main_eq (c : Client) (config : Config) (bot : Bot) (h : main c config = some bot) :
    ∃ H0 follower, c.headerByNumber 0 = some H0 ∧
      bot = { config := config, followerAddress := follower, lastBlockNumber := uint64 H0,
              processedTxs := [], clock := 1, logs := [], broadcasts := [], crashed := false } := by
  unfold main at h
  split at h
  · simp at h
  · split at h
    · simp at h
    · split at h
      · simp at h
      · rename_i follower _ _ H0 hH0
        exact ⟨H0, follower, hH0, (Option.some.inj h).symm⟩

/-! ## An undecodable method -/

theorem methodById_none (c : Client) (sigdata : List Nat)
    (h : ∀ name ∈ routerABI, c.methodID name ≠ sigdata) :
    methodById c routerABI sigdata = none := by
  unfold methodById
  rw [List.find?_eq_none]
  intro name hname
  simpa using h name hname

theorem copySwap_unknown (c : Client) (bot : Bot) (tx : Tx) (n : Nat)
    (hlen : 4 ≤ tx.data.length)
    (hsel : ∀ name ∈ routerABI, c.methodID name ≠ tx.data.take 4) :
    copySwap c bot tx n = bot.log .couldNotDecodeMethod := by
  simp only [copySwap, methodById_none c _ hsel]
  rw [if_neg (by omega)]

theorem processLogs_unknown (c : Client) (tx : Tx) (n : Nat)
    (hlen : 4 ≤ tx.data.length)
    (hsel : ∀ name ∈ routerABI, c.methodID name ≠ tx.data.take 4)
    (logs : List Log) (bot : Bot) (hrun : bot.crashed = false) :
    processLogs c tx n logs bot = { bot with logs := bot.logs ++ eventLines c logs } := by
  induction logs generalizing bot with
  | nil => simp [processLogs, eventLines]
  | cons lg rest ih =>
    simp only [processLogs, eventLines]
    rw [if_neg (by simp [hrun])]
    by_cases h0 : lg.topics.length = 0
    · have ht : lg.topics[0]? ≠ some c.swapEventSig := by
        rw [List.getElem?_eq_none (by omega)]; simp
      rw [if_pos h0, if_neg ht]
      exact ih bot hrun
    · rw [if_neg h0]
      by_cases ht : lg.topics[0]? = some c.swapEventSig
      · rw [if_neg (by simp [ht]), if_pos ht]
        by_cases hu : c.unpackSwapEvent lg.data = false
        · rw [if_pos hu, ih _ (by simpa [Bot.log] using hrun)]
          simp [hu, Bot.log]
        · rw [if_neg hu, copySwap_unknown c bot tx n hlen hsel,
            ih _ (by simpa [Bot.log] using hrun)]
          simp [hu, Bot.log]
      · rw [if_pos ht, if_neg ht]
        exact ih bot hrun

theorem count_eventLines (c : Client) (logs : List Log) :
    (eventLines c logs).count .couldNotDecodeMethod = (swapEvents c logs).length := by
  induction logs with
  | nil => rfl
  | cons lg rest ih =>
    simp only [swapEvents] at ih ⊢
    simp only [eventLines, List.filter_cons]
    by_cases ht : lg.topics[0]? = some c.swapEventSig
    · by_cases hu : c.unpackSwapEvent lg.data = true
      · simp [ht, hu, ih]
      · simp [ht, hu, ih]
    · simp [ht, ih]

/-- Processing a transaction whose method cannot be decoded: the bot gains log
lines and one RPC call, nothing else. -/
theorem processSwapTransaction_unknown (c : Client) (bot : Bot) (tx : Tx) (n : Nat)
    (hrun : bot.crashed = false) (hlen : 4 ≤ tx.data.length)
    (hsel : ∀ name ∈ routerABI, c.methodID name ≠ tx.data.take 4) :
    processSwapTransaction c bot tx n =
      match c.transactionReceipt bot.clock tx.hash with
      | none =>
        { bot with clock := bot.clock + 1,
                   logs := bot.logs ++ [.newSwapDetected tx.hash, .errorGettingReceipt] }
      | some receipt =>
        { bot with clock := bot.clock + 1,
                   logs := bot.logs ++ .newSwapDetected tx.hash :: eventLines c receipt.logs } := by
  simp only [processSwapTransaction]
  have e : (bot.log (.newSwapDetected tx.hash)).clock = bot.clock := rfl
  rw [e]
  cases c.transactionReceipt bot.clock tx.hash with
  | none => simp [Bot.log, Bot.tick]
  | some receipt =>
    simp only []
    rw [processLogs_unknown c tx n hlen hsel _ _ (by simpa [Bot.log, Bot.tick] using hrun)]
    simp [Bot.log, Bot.tick]

/-! ## What the token-input executors hand on -/

theorem scanTransactions_of_crashed (c : Client) (block : Block) (n : Nat) (txs : List Tx)
    (bot : Bot) (h : bot.crashed = true) : scanTransactions c block n txs bot = bot := by
  induction txs with
  | nil => rfl
  | cons tx rest ih =>
    simp only [scanTransactions]
    have e : scanTransaction c block n bot tx = bot := by simp [scanTransaction, h]
    rw [e, ih]

/-- When the loop over a block ends without a panic, no transaction was reached
after a panic. -/
theorem visits_not_crashed (c : Client) (block : Block) (n : Nat) (txs : List Tx) (bot : Bot)
    (h : (scanTransactions c block n txs bot).crashed = false) :
    ∀ v ∈ visits c block n txs bot, v.1.crashed = false := by
  induction txs generalizing bot with
  | nil => intro v hv; simp [visits] at hv
  | cons tx rest ih =>
    intro v hv
    simp only [visits, List.mem_cons] at hv
    simp only [scanTransactions] at h
    rcases hv with rfl | hv
    · cases hcr : bot.crashed with
      | false => rfl
      | true =>
        have e : scanTransaction c block n bot tx = bot := by simp [scanTransaction, hcr]
        rw [e, scanTransactions_of_crashed c block n rest bot hcr, hcr] at h
        exact absurd h (by simp)
    · exact ih _ h v hv

theorem selected_eq (c : Client) (block : Block) (bot : Bot) (tx : Tx) :
    selected c block bot tx = (!bot.crashed && eligible c block bot tx) := by
  simp [selected, eligible, Bool.and_assoc]


/-! ## C1: the cursor after one scan pass -/

/-- C1 (as amended).  Let the cursor be `L`, let the head query return `H` with
`L + 1 ≤ H`, and let no `uint64` wrap: `L + 10 < 2^64` and `min (L + 10) H` is
not the largest `uint64`.  Then, whatever the block, sender, receipt and other
RPCs answer, one scan pass returns; if it has not panicked the cursor is
`min (L + 10) H`; and it has not panicked when the codec keeps the contract
`SafeCodec`. -/
theorem scanNewBlocks_advances_cursor (c : Client) (bot : Bot) (H fuel : Nat)
    (hrun : bot.crashed = false)
    (hhead : c.headerByNumber bot.clock = some H)
    (hH : H < 2 ^ 64)
    (hnew : bot.lastBlockNumber + 1 ≤ H)
    (hwrap : bot.lastBlockNumber + 10 < 2 ^ 64)
    (hend : min (bot.lastBlockNumber + 10) H + 1 < 2 ^ 64)
    (hfuel : 11 ≤ fuel) :
    ∃ bot', scanNewBlocks c fuel bot = some bot' ∧
      (bot'.crashed = false → bot'.lastBlockNumber = min (bot.lastBlockNumber + 10) H) ∧
      (c.SafeCodec → bot'.crashed = false) :=
  scanNewBlocks_pass c bot H fuel hrun hhead hH hnew hwrap hend hfuel

theorem scanNewBlocks_advances_cursor_witness :
    (100 + 1 ≤ 103 ∧ 100 + 10 < 2 ^ 64) ∧
    ∃ bot', scanNewBlocks demoChain 11 (demoBot 50 100) = some bot' ∧
      (bot'.crashed = false → bot'.lastBlockNumber = min (100 + 10) 103) ∧
      (demoChain.SafeCodec → bot'.crashed = false) :=
  ⟨by decide, scanNewBlocks_advances_cursor demoChain (demoBot 50 100) 103 11 rfl rfl
    (by decide) (by decide) (by decide) (by decide) (by decide)⟩

/-- C1 (the claim as stated fails).  Three concrete passes with `H ≥ L + 1`.
With `L = 2^64 - 5` and `H = 2^64 - 1` the end of the range wraps to 5: every
pass that returns has scanned nothing and left the cursor at 5, not at
`min (L + 10) H = 2^64 - 1`.  With `L = 2^64 - 11` and `H = 2^64 - 1` the
range ends at the largest `uint64`, the loop counter wraps and the pass never
returns, whatever the fuel.  With `L = 100`, `H = 101` and a master swap in
block 101 whose token path decodes empty, the pass panics and the cursor stays
at 100. -/
theorem scanNewBlocks_cursor_counterexample :
    ((scanNewBlocks (headOnlyClient (2 ^ 64 - 1)) 11 (demoBot 50 (2 ^ 64 - 5))).isSome = true ∧
      (∀ fuel bot', scanNewBlocks (headOnlyClient (2 ^ 64 - 1)) fuel (demoBot 50 (2 ^ 64 - 5))
          = some bot' →
        (bot'.lastBlockNumber, bot'.logs, bot'.crashed) =
          (5, [.scanningBlocks (2 ^ 64 - 4) 5], false)) ∧
      min (2 ^ 64 - 5 + 10) (2 ^ 64 - 1) = 2 ^ 64 - 1) ∧
    (∀ fuel, scanNewBlocks (headOnlyClient (2 ^ 64 - 1)) fuel (demoBot 50 (2 ^ 64 - 11))
      = none) ∧
    ((scanNewBlocks emptyPathChain 11 (demoBot 50 100)).isSome = true ∧
      ∀ fuel bot', scanNewBlocks emptyPathChain fuel (demoBot 50 100) = some bot' →
        (bot'.lastBlockNumber, bot'.crashed) = (100, true)) := by
  refine ⟨⟨by decide, pass_property _ _ (by decide), by decide⟩, ?_,
    ⟨by decide, pass_property _ _ (by decide)⟩⟩
  intro fuel
  have h := scanLoop_headOnly_diverges (2 ^ 64 - 1) fuel (2 ^ 64 - 10)
    (((demoBot 50 (2 ^ 64 - 11)).tick).log (.scanningBlocks (2 ^ 64 - 10) (2 ^ 64 - 1)))
    (by decide) rfl
  have e : scanNewBlocks (headOnlyClient (2 ^ 64 - 1)) fuel (demoBot 50 (2 ^ 64 - 11)) =
      match scanLoop (headOnlyClient (2 ^ 64 - 1)) (2 ^ 64 - 1) fuel (2 ^ 64 - 10)
        (((demoBot 50 (2 ^ 64 - 11)).tick).log
          (.scanningBlocks (2 ^ 64 - 10) (2 ^ 64 - 1))) with
      | none => none
      | some bot =>
        if bot.crashed then some bot else some { bot with lastBlockNumber := 2 ^ 64 - 1 } := rfl
  rw [e, h]

/-! ## C3: the swap filter -/

/-- C3 (as amended).  When block `blockNumber` is fetched, `scanBlock` hands to
`processSwapTransaction` exactly the transactions of the block, in block order,
that the loop reaches before any panic of an executor with (i) a hash not in
the dedup ledger, (ii) a sender that resolves to the master address and (iii)
the router as destination (`selected`).  When the block is scanned without a
panic these are exactly the transactions that meet (i), (ii) and (iii)
(`eligible`), and no panic occurs with a safe codec.  A transaction whose hash
is in the dedup ledger leaves the bot as it was: no sender resolution, no
decoding, no submission.  A transaction that is not selected costs at most the
sender resolution. -/
theorem scanBlock_passes_selected (c : Client) (bot : Bot) (blockNumber : Nat) (block : Block)
    (hblock : c.blockByNumber bot.clock (int64 blockNumber) = some block) :
    (scanBlock c bot blockNumber).passed =
        bot.passed ++ ((visits c block blockNumber block.transactions bot.tick).filter
          (fun v => selected c block v.1 v.2)).map (fun v => v.2.hash) ∧
      ((scanBlock c bot blockNumber).crashed = false →
        (scanBlock c bot blockNumber).passed =
          bot.passed ++ ((visits c block blockNumber block.transactions bot.tick).filter
            (fun v => eligible c block v.1 v.2)).map (fun v => v.2.hash)) ∧
      (c.SafeCodec → bot.crashed = false → (scanBlock c bot blockNumber).crashed = false) ∧
      (∀ b tx, tx.hash ∈ b.processedTxs → scanTransaction c block blockNumber b tx = b) ∧
      (∀ b tx, selected c block b tx = false →
        scanTransaction c block blockNumber b tx = b ∨
          scanTransaction c block blockNumber b tx = b.tick) := by
  have hscan : scanBlock c bot blockNumber =
      scanTransactions c block blockNumber block.transactions bot.tick := by
    simp only [scanBlock, hblock]
  have hpassed := scanTransactions_passed c block blockNumber block.transactions bot.tick
  refine ⟨?_, fun hcr => ?_, fun hc hrun => ?_,
    fun b tx h => scanTransaction_of_mem c block blockNumber b tx h,
    fun b tx h => scanTransaction_of_not_selected c block blockNumber b tx h⟩
  · rw [hscan]; exact hpassed
  · rw [hscan] at hcr ⊢
    rw [hpassed]
    have hv := visits_not_crashed c block blockNumber block.transactions bot.tick hcr
    have hf : (visits c block blockNumber block.transactions bot.tick).filter
          (fun v => selected c block v.1 v.2) =
        (visits c block blockNumber block.transactions bot.tick).filter
          (fun v => eligible c block v.1 v.2) := by
      apply List.filter_congr
      intro v hmem
      rw [selected_eq, hv v hmem]
      rfl
    rw [hf]
    rfl
  · rw [scanBlock_crashed c hc]; exact hrun

/-- C3 on block 101 of `mixedChain`, with transaction 70 in the dedup ledger:
the two swaps of the master are handed over, each once, in block order, by
either description of the filter. -/
theorem scanBlock_passes_selected_witness :
    mixedChain.blockByNumber 0 (int64 101) = some ⟨501, mixedTransactions⟩ ∧
      (scanBlock mixedChain { demoBot 50 100 with processedTxs := [70] } 101).passed
        = [77, 78] ∧
      ((visits mixedChain ⟨501, mixedTransactions⟩ 101 mixedTransactions
          { demoBot 50 100 with processedTxs := [70] }.tick).filter
        (fun v => eligible mixedChain ⟨501, mixedTransactions⟩ v.1 v.2)).map
          (fun v => v.2.hash) = [77, 78] :=
  ⟨by decide,
    (scanBlock_passes_selected mixedChain { demoBot 50 100 with processedTxs := [70] } 101
      ⟨501, mixedTransactions⟩ (by decide)).1.trans (by decide),
    by decide⟩

/-- C3 (the claim as stated fails).  Block 101 of `emptyPathFirstChain` holds two
swaps of the master to the router, neither in the dedup ledger.  The first
panics in its executor, so `scanBlock` hands over transaction 78 alone, while
the transactions of the block that meet (i), (ii) and (iii) are 78 and 77. -/
theorem scanBlock_filter_counterexample :
    emptyPathFirstChain.blockByNumber 0 (int64 101) = some ⟨501, [tokenSwapTx, nativeSwapTx]⟩ ∧
      (scanBlock emptyPathFirstChain (demoBot 100 100) 101).passed = [78] ∧
      ((visits emptyPathFirstChain ⟨501, [tokenSwapTx, nativeSwapTx]⟩ 101
          [tokenSwapTx, nativeSwapTx] (demoBot 100 100).tick).filter
        (fun v => eligible emptyPathFirstChain ⟨501, [tokenSwapTx, nativeSwapTx]⟩ v.1 v.2)).map
          (fun v => v.2.hash) = [78, 77] := by
  decide

/-! ## C2: one replica per master transaction -/

/-- C2 (the code at the failing input).  Block 101 holds one master swap,
transaction 77, whose receipt carries two `Swap` events.  One scan pass hands
transaction 77 to `processSwapTransaction` once and marks it processed, and
broadcasts two replica swaps for it, each for the whole copy amount. -/
theorem scanNewBlocks_replicates_twice :
    (scanNewBlocks twoHopChain 11 (demoBot 100 100)).isSome = true ∧
      ∀ fuel bot', scanNewBlocks twoHopChain fuel (demoBot 100 100) = some bot' →
        (bot'.passed, bot'.processedTxs,
            bot'.broadcasts.map (fun t => (t.to_, t.value, t.data.method))) =
          ([77], [77],
            [(2, 10000, "swapExactETHForTokens"), (2, 10000, "swapExactETHForTokens")]) :=
  ⟨by decide, pass_property _ _ (by decide)⟩

/-! ## C4: the copy amount of a token-input swap -/

/-- C6 (as amended).  A swap the native-input executor broadcasts goes to the
router and sends `floor (B * P / 100)`, with `B` the master balance read at
decode time and `P = int64(CopyPercentage)`, the configured percentage with its
fraction discarded; for a configured whole number `p` of the `int64` range the
copy amount is `floor (B * p / 100)`.  The value attached to the master
transaction is not read: changing it changes nothing of what `copySwap` and
`processSwapTransaction` do. -/
theorem native_copy_amount (c : Client) (bot : Bot) (values : List Value) (n : Nat) :
    ((executeETHForTokensSwap c bot values n).broadcasts = bot.broadcasts ∨
        ∃ (B : Nat) (tx : Transaction),
          c.balanceAt bot.clock bot.config.MasterWalletAddr = some B ∧
          (executeETHForTokensSwap c bot values n).broadcasts = bot.broadcasts ++ [tx] ∧
          tx.to_ = bot.config.RouterAddress ∧
          tx.value = ⌊(B : ℚ) * (int64OfFloat64 bot.config.CopyPercentage : Int) / 100⌋) ∧
      (∀ (p : Int) (B : Nat), bot.config.CopyPercentage = (p : ℚ) →
        -(2 ^ 63) ≤ p ∧ p < 2 ^ 63 → copyAmountIn bot.config B = ⌊(B : ℚ) * (p : ℚ) / 100⌋) ∧
      (∀ (tx : Tx) (v : Int) (blockNumber : Nat),
        copySwap c bot { tx with value := v } blockNumber = copySwap c bot tx blockNumber ∧
        processSwapTransaction c bot { tx with value := v } blockNumber =
          processSwapTransaction c bot tx blockNumber) := by
  refine ⟨?_, fun p B hcfg hp => ?_, fun tx v bn => ⟨rfl, ?_⟩⟩
  · rcases executeETHForTokensSwap_broadcasts c bot values n with
      h | ⟨M, path, B, F, nonce, _, hB, _, _, _, _, h⟩
    · exact Or.inl h
    · refine Or.inr ⟨B, _, hB, h, rfl, ?_⟩
      have e := copyAmountIn_eq_floor bot.config (B : Int)
      simpa using e
  · have e := copyAmountIn_eq_floor bot.config (B : Int)
    rw [hcfg, int64OfFloat64_intCast p hp] at e
    simpa using e
  · simp only [processSwapTransaction, processLogs_value]

/-- C6 at `B = 10000`, `p = 25`: the replica sends 2500 to the router. -/
theorem native_copy_amount_witness :
    copyAmountIn (demoBot 25 100).config ((10000 : Nat) : Int) = 2500 ∧
      (executeETHForTokensSwap demoChain (demoBot 25 100)
        [.bigInt 200, .addresses [10, 11], .address 1, .bigInt 1700000000] 101).broadcasts.map
          (fun t => (t.to_, t.value)) = [(2, 2500)] :=
  ⟨((native_copy_amount demoChain (demoBot 25 100) [] 0).2.1 25 10000
      (by simp [demoBot, demoConfig]) (by decide)).trans
      (by rw [Int.floor_eq_iff]; norm_num),
    by decide⟩

/-- C6 (the claim as stated fails).  With the configured percentage 12.5 and a
master balance of 10000 the replica sends 1200, and `floor (10000 * 12.5 / 100)`
is 1250. -/
theorem native_copy_amount_counterexample :
    (executeETHForTokensSwap demoChain (demoBot 12.5 100)
        [.bigInt 200, .addresses [10, 11], .address 1, .bigInt 1700000000] 101).broadcasts.map
          (fun t => (t.to_, t.value)) = [(2, 1200)] ∧
      ⌊(10000 : ℚ) * 12.5 / 100⌋ = 1250 :=
  ⟨by decide!, by rw [Int.floor_eq_iff]; norm_num⟩

/-! ## C7: abandoned orders -/

/-- C7.  The native-input executor broadcasts nothing when the copy amount
computed from the master balance `B` is zero, or when the follower balance `F`
is below it.  The two token-input executors never broadcast anything, hence
neither an approval nor a swap in the two cases of the claim. -/
theorem abandoned_order_broadcasts_nothing (c : Client) (bot : Bot) (values : List Value)
    (n : Nat) :
    (∀ B : Nat, c.balanceAt bot.clock bot.config.MasterWalletAddr = some B →
        (copyAmountIn bot.config B = 0 ∨
          ∃ F : Nat, c.balanceAt (bot.clock + 1) bot.followerAddress = some F ∧
            (F : Int) < copyAmountIn bot.config B) →
        (executeETHForTokensSwap c bot values n).broadcasts = bot.broadcasts) ∧
      (executeTokensForETHSwap c bot values n).broadcasts = bot.broadcasts ∧
      (executeTokensForTokensSwap c bot values n).broadcasts = bot.broadcasts := by
  refine ⟨fun B hB h => ?_, ?_, ?_⟩
  · rcases executeETHForTokensSwap_broadcasts c bot values n with
      h' | ⟨M, path, B', F', nonce, _, hB', hF', hz, hle, _, _⟩
    · exact h'
    · rw [hB] at hB'
      obtain rfl : B = B' := Option.some.inj hB'
      rcases h with h0 | ⟨F, hF, hlt⟩
      · exact absurd h0 hz
      · rw [hF] at hF'
        obtain rfl : F = F' := Option.some.inj hF'
        omega
  · rw [executeTokensForETHSwap_eq]
    repeat' split
    all_goals rfl
  · rw [executeTokensForTokensSwap_eq]
    repeat' split
    all_goals rfl

/-- C7 on two native-input orders: a copy amount of zero (master balance 1,
percentage 50), and a copy amount of 5000 against a follower balance of 10. -/
theorem abandoned_order_broadcasts_nothing_witness :
    (executeETHForTokensSwap (chainClient 103 (fun _ => none) (fun _ => none) (fun _ => none)
        1 1000000 (demoDecode [10, 11])) (demoBot 50 100)
        [.bigInt 200, .addresses [10, 11], .address 1, .bigInt 1700000000] 101).broadcasts = [] ∧
      (executeETHForTokensSwap poorFollowerChain (demoBot 50 100)
        [.bigInt 200, .addresses [10, 11], .address 1, .bigInt 1700000000] 101).broadcasts = [] :=
  ⟨(abandoned_order_broadcasts_nothing _ (demoBot 50 100) _ 101).1 1 (by decide)
      (Or.inl (by decide)),
    (abandoned_order_broadcasts_nothing poorFollowerChain (demoBot 50 100) _ 101).1 10000
      (by decide) (Or.inr ⟨10, by decide, by decide⟩)⟩

/-! ## C8: the approval step -/

/-- C8 (what the code does).  `erc20ABI` declares `balanceOf`, `approve` and
`decimals` only, so packing the `allowance` call fails: `checkAndApproveToken`
returns that error at once, having queried no allowance and broadcast no
approval, and both token-input executors log the approval error and return
without submitting a swap.  On `tokenChain`, where every RPC would succeed, a
pass over a token-input swap of the master makes four RPC calls (head, block,
sender, receipt) and broadcasts nothing. -/
theorem checkAndApproveToken_fails (c : Client) (bot : Bot) (tokenAddr : Address)
    (amount : Int) (values : List Value) (n : Nat) :
    checkAndApproveToken c bot tokenAddr amount = (some .packingAllowanceCall, bot) ∧
      (∀ amountIn amountOutMin rest,
        assertTokensFor values = some (amountIn, amountOutMin, tokenAddr :: rest) →
        executeTokensForETHSwap c bot values n = bot.log .errorWithTokenApproval ∧
          executeTokensForTokensSwap c bot values n = bot.log .errorWithTokenApproval) ∧
      (scanNewBlocks tokenChain 11 (demoBot 100 100)).map
          (fun b => (b.broadcasts, b.clock, b.logs)) =
        some ([], 4, [.scanningBlocks 101 101, .newSwapDetected 78,
          .swapMethodDetected "swapExactTokensForETH", .errorWithTokenApproval]) := by
  refine ⟨checkAndApproveToken_eq c bot tokenAddr amount, fun a m rest h => ?_, by decide⟩
  have hlen := assertTokensFor_length values _ h
  rw [executeTokensForETHSwap_eq, executeTokensForTokensSwap_eq, if_neg hlen, if_neg hlen, h]
  exact ⟨rfl, rfl⟩

/-! ## C9: a second pass with the same head -/

/-- C9 (as amended).  Let the cursor be `L` and let two consecutive passes see
the same head `H` with `L + 1 ≤ H ≤ L + 10`, no `uint64` wrap (`L + 10 < 2^64`,
`H + 1 < 2^64`).  The first pass returns, and unless it panicked the second
pass is the head query and nothing else: it scans no block, logs nothing,
broadcasts nothing and leaves the cursor and the dedup ledger as they were. -/
theorem second_pass_noop (c : Client) (bot : Bot) (H fuel fuel' : Nat)
    (hrun : bot.crashed = false)
    (hhead : c.headerByNumber bot.clock = some H)
    (hnew : bot.lastBlockNumber + 1 ≤ H)
    (hmax : H ≤ bot.lastBlockNumber + 10)
    (hwrap : bot.lastBlockNumber + 10 < 2 ^ 64)
    (hH : H + 1 < 2 ^ 64)
    (hfuel : 11 ≤ fuel) :
    ∃ bot₁, scanNewBlocks c fuel bot = some bot₁ ∧
      (bot₁.crashed = false → c.headerByNumber bot₁.clock = some H →
        scanNewBlocks c fuel' bot₁ = some bot₁.tick) := by
  obtain ⟨bot₁, h₁, hcur, _⟩ := scanNewBlocks_pass c bot H fuel hrun hhead (by omega) hnew hwrap
    (by rw [Nat.min_eq_right hmax]; exact hH) hfuel
  refine ⟨bot₁, h₁, fun hcr hhead₁ => ?_⟩
  have hL : bot₁.lastBlockNumber = H := by rw [hcur hcr, Nat.min_eq_right hmax]
  have hs : uint64 (bot₁.lastBlockNumber + 1) = H + 1 := by rw [hL]; exact uint64_of_lt hH
  unfold scanNewBlocks
  rw [if_neg (by simp [hcr])]
  simp only [hhead₁, Bot.tick, hs, uint64_of_lt (show H < 2 ^ 64 by omega)]
  rw [if_pos (by omega)]

theorem second_pass_noop_witness :
    ∃ bot₁, scanNewBlocks demoChain 11 (demoBot 50 100) = some bot₁ ∧
      (bot₁.crashed = false → demoChain.headerByNumber bot₁.clock = some 103 →
        scanNewBlocks demoChain 0 bot₁ = some bot₁.tick) :=
  second_pass_noop demoChain (demoBot 50 100) 103 11 0 rfl rfl (by decide) (by decide)
    (by decide) (by decide) (by decide)

/-- C9 (the claim as stated fails).  With the cursor at 0 and the head at 100,
the first pass ends with the cursor at 10 and the second pass, seeing the same
head, scans blocks 11 to 20 and moves the cursor to 20. -/
theorem second_pass_counterexample :
    (scanNewBlocks (headOnlyClient 100) 11 (demoBot 50 0)).map (fun b => b.lastBlockNumber)
        = some 10 ∧
      ((scanNewBlocks (headOnlyClient 100) 11 (demoBot 50 0)).bind
          (scanNewBlocks (headOnlyClient 100) 11)).map
        (fun b => (b.lastBlockNumber, decide (LogLine.scanningBlocks 11 20 ∈ b.logs),
          decide (LogLine.errorGettingBlock 20 ∈ b.logs))) = some (20, true, true) := by
  decide

/-! ## C10: the cursor at startup -/

/-- C10 (as amended).  When `main` reaches the scheduler, the head query
answered some `H0` and the cursor is `H0` itself (as a `uint64`), not
`H0 - 1`.  A first pass that sees the head still at the cursor scans nothing;
a first pass that sees a head `H` above the cursor `L` (with `L + 10 < 2^64`)
announces and enters the range at block `L + 1`.  (The first case needs the
head below the largest `uint64`.) -/
theorem main_cursor (c : Client) (config : Config) (bot : Bot)
    (hmain : main c config = some bot) :
    (∃ H0, c.headerByNumber 0 = some H0 ∧ bot.lastBlockNumber = uint64 H0) ∧
      (∀ fuel H, c.headerByNumber bot.clock = some H → H = bot.lastBlockNumber →
        H + 1 < 2 ^ 64 → scanNewBlocks c fuel bot = some bot.tick) ∧
      (∀ fuel H, c.headerByNumber bot.clock = some H → H < 2 ^ 64 →
        bot.lastBlockNumber + 1 ≤ H → bot.lastBlockNumber + 10 < 2 ^ 64 →
        scanNewBlocks c fuel bot =
          match scanLoop c (min (bot.lastBlockNumber + 10) H) fuel (bot.lastBlockNumber + 1)
            (bot.tick.log (.scanningBlocks (bot.lastBlockNumber + 1)
              (min (bot.lastBlockNumber + 10) H))) with
          | none => none
          | some b =>
            if b.crashed then some b
            else some { b with lastBlockNumber := min (bot.lastBlockNumber + 10) H }) := by
  obtain ⟨H0, follower, hH0, hbot⟩ := main_eq c config bot hmain
  have hcr : ¬ bot.crashed = true := by rw [hbot]; simp
  have hlt : bot.lastBlockNumber < 2 ^ 64 := by
    rw [hbot]; exact Nat.mod_lt _ (by decide)
  refine ⟨⟨H0, hH0, by rw [hbot]⟩, fun fuel H hhead hH hmax => ?_,
    fun fuel H hhead hH hnew hwrap => ?_⟩
  · unfold scanNewBlocks
    rw [if_neg hcr]
    simp only [hhead, Bot.tick]
    rw [if_pos]
    subst hH
    rw [uint64_of_lt hlt, uint64_of_lt hmax]
    omega
  · exact scanNewBlocks_enters c bot H fuel hcr hhead hH hnew hwrap

theorem main_cursor_witness :
    (∃ H0, (headOnlyClient 100).headerByNumber 0 = some H0 ∧
        (demoBot 50 100).tick.lastBlockNumber = uint64 H0) ∧
      scanNewBlocks (headOnlyClient 100) 11 (demoBot 50 100).tick
        = some (demoBot 50 100).tick.tick :=
  ⟨(main_cursor (headOnlyClient 100) (demoConfig 50) (demoBot 50 100).tick rfl).1,
    (main_cursor (headOnlyClient 100) (demoConfig 50) (demoBot 50 100).tick rfl).2.1 11 100
      rfl rfl (by decide)⟩

/-- C10 (the claim as stated fails).  Started on a chain whose head is 100, the
bot has its cursor at 100, not 99.  Its first pass scans nothing when the head
is still 100, and scans block 101 alone when the head is 101: block 100 is
never fetched. -/
theorem main_cursor_counterexample :
    (main (headOnlyClient 100) (demoConfig 50)).map (fun b => b.lastBlockNumber) = some 100 ∧
      ((main (headOnlyClient 100) (demoConfig 50)).bind
          (scanNewBlocks (headOnlyClient 100) 11)).map (fun b => (b.lastBlockNumber, b.logs))
        = some (100, []) ∧
      ((main (headOnlyClient 100) (demoConfig 50)).bind
          (scanNewBlocks (headOnlyClient 101) 11)).map (fun b => (b.lastBlockNumber, b.logs))
        = some (101, [.scanningBlocks 101 101, .errorGettingBlock 101]) := by
  decide

/-! ## C11: an unknown selector -/

/-- C11 (as amended).  Take a transaction handed to `processSwapTransaction`
whose call data opens with four bytes that are the selector of none of the
three functions of `routerABI`.  Whatever its receipt, processing it broadcasts
nothing and does not panic, and every call of `copySwap` for it logs one skip
and does nothing else.  The skips logged are none when the receipt cannot be
fetched, and as many as the receipt has `Swap` events when it has at most one:
one skip for one event, none for none. -/
theorem unknown_selector_skipped (c : Client) (bot : Bot) (tx : Tx) (n : Nat)
    (hrun : bot.crashed = false) (hlen : 4 ≤ tx.data.length)
    (hsel : ∀ name ∈ routerABI, c.methodID name ≠ tx.data.take 4) :
    (processSwapTransaction c bot tx n).broadcasts = bot.broadcasts ∧
      (processSwapTransaction c bot tx n).crashed = false ∧
      (∀ bot', copySwap c bot' tx n = bot'.log .couldNotDecodeMethod) ∧
      (c.transactionReceipt bot.clock tx.hash = none →
        (processSwapTransaction c bot tx n).skips = bot.skips) ∧
      (∀ receipt, c.transactionReceipt bot.clock tx.hash = some receipt →
        (swapEvents c receipt.logs).length ≤ 1 →
        (processSwapTransaction c bot tx n).skips =
          bot.skips + (swapEvents c receipt.logs).length) := by
  have h := processSwapTransaction_unknown c bot tx n hrun hlen hsel
  refine ⟨?_, ?_, fun bot' => copySwap_unknown c bot' tx n hlen hsel, fun hr => ?_,
    fun receipt hr _ => ?_⟩
  · rw [h]; split <;> rfl
  · rw [h]; split <;> exact hrun
  · rw [h, hr]
    simp [Bot.skips, List.count_append]
  · rw [h, hr]
    simp [Bot.skips, List.count_append, List.count_cons, count_eventLines]

/-- C11 on a call of an undeclared router function whose receipt holds one
`Swap` event: one skip, no broadcast. -/
theorem unknown_selector_skipped_witness :
    (processSwapTransaction (receiptClient [swapLog]) (demoBot 50 100) unknownSelectorTx
        101).broadcasts = [] ∧
      (processSwapTransaction (receiptClient [swapLog]) (demoBot 50 100) unknownSelectorTx
        101).skips = 1 :=
  ⟨(unknown_selector_skipped (receiptClient [swapLog]) (demoBot 50 100) unknownSelectorTx 101
      rfl (by decide) (by decide)).1,
    (unknown_selector_skipped (receiptClient [swapLog]) (demoBot 50 100) unknownSelectorTx 101
      rfl (by decide) (by decide)).2.2.2.2 ⟨[swapLog]⟩ rfl (by decide)⟩

/-- C11 (the claim as stated fails).  The same call with a receipt that holds no
`Swap` event, and with a receipt that cannot be fetched: the transaction is
reported as detected and no skip is logged. -/
theorem unknown_selector_counterexample :
    (processSwapTransaction (receiptClient []) (demoBot 50 100) unknownSelectorTx 101).logs
        = [.newSwapDetected 80] ∧
      (processSwapTransaction (receiptClient []) (demoBot 50 100) unknownSelectorTx 101).skips
        = 0 ∧
      (processSwapTransaction (headOnlyClient 101) (demoBot 50 100) unknownSelectorTx 101).logs
        = [.newSwapDetected 80, .errorGettingReceipt] ∧
      (processSwapTransaction (headOnlyClient 101) (demoBot 50 100) unknownSelectorTx 101).skips
        = 0 := by
  decide

/-! ## C12: the sold token of a token-input swap -/

/-- C12 (the code at the failing input).  Handed decoded values whose token path
is empty, both token-input executors panic at `path[0]`, whatever the amounts
and whatever the node answers; with a path that is not empty they return after
logging the approval error.  On `emptyPathFirstChain` the pass dies on the
first transaction of block 101: the swap that follows it is never handed to
`processSwapTransaction`, nothing is marked processed and the cursor stays at
100. -/
theorem token_executor_panics_on_empty_path (c : Client) (bot : Bot)
    (amountIn amountOutMin deadline : Int) (to_ : Address) (n : Nat) :
    executeTokensForETHSwap c bot
        [.bigInt amountIn, .bigInt amountOutMin, .addresses [], .address to_, .bigInt deadline] n
        = bot.panic ∧
      executeTokensForTokensSwap c bot
        [.bigInt amountIn, .bigInt amountOutMin, .addresses [], .address to_, .bigInt deadline] n
        = bot.panic ∧
      (∀ tokenAddr rest,
        executeTokensForETHSwap c bot
          [.bigInt amountIn, .bigInt amountOutMin, .addresses (tokenAddr :: rest), .address to_,
            .bigInt deadline] n = bot.log .errorWithTokenApproval ∧
        executeTokensForTokensSwap c bot
          [.bigInt amountIn, .bigInt amountOutMin, .addresses (tokenAddr :: rest), .address to_,
            .bigInt deadline] n = bot.log .errorWithTokenApproval) ∧
      (scanNewBlocks emptyPathFirstChain 11 (demoBot 100 100)).map
          (fun b => (b.crashed, b.passed, b.processedTxs, b.broadcasts, b.lastBlockNumber))
        = some (true, [78], [], [], 100) := by
  refine ⟨?_, ?_, fun tokenAddr rest => ⟨?_, ?_⟩, by decide⟩
  · rw [executeTokensForETHSwap_eq]; rfl
  · rw [executeTokensForTokensSwap_eq]; rfl
  · rw [executeTokensForETHSwap_eq]; rfl
  · rw [executeTokensForTokensSwap_eq]; rfl

end CopyTradingBot
